import Mathlib

/-!
# Verification of the LLM response normalization and repair pipeline

Shallow embedding of the core of the company-lookup-tool repository:
the repair engine (`repairAnalysisData`), the structural validators
(`validate.basicStructure`, `validate.analysisData` and the Zod schemas
they parse with), the pipeline orchestrator (`processCompanyAnalysis`
and its helpers), the multi-step generation assembly
(`processMultiStepAnalysis`, `getBasicCompanyInfo`) and the
enrichment helper `extractCompetitors`.

JSON values are modelled by the inductive type `Json`, which includes a
distinct `undef` constructor because the source distinguishes
JavaScript's `undefined` from `null` (`'k' in obj`, `!== undefined`,
`?.` and Zod's `.optional()` vs `.nullable()` all tell them apart).
Numbers are modelled as integers: every numeric literal the embedded
code manipulates (0, 5, 42, token counts) is an integer and none of the
embedded operations does non-integral arithmetic.

JavaScript operations that can throw (property access on
`null`/`undefined`, the `in` operator on primitives) are modelled in the
`Except Unit` monad; the repair engine's surrounding `try/catch` is the
`match` that resolves an internal error to the default structure.
-/

inductive Json where
  | null
  | undef
  | bool (b : Bool)
  | num (n : Int)
  | str (s : String)
  | arr (elems : List Json)
  | obj (fields : List (String × Json))

mutual

def jsonDecEq : (a b : Json) → Decidable (a = b)
  | .null, .null => isTrue rfl
  | .undef, .undef => isTrue rfl
  | .bool a, .bool b =>
      match decEq a b with
      | isTrue h => isTrue (by rw [h])
      | isFalse h => isFalse (by intro hh; cases hh; exact h rfl)
  | .num a, .num b =>
      match decEq a b with
      | isTrue h => isTrue (by rw [h])
      | isFalse h => isFalse (by intro hh; cases hh; exact h rfl)
  | .str a, .str b =>
      match decEq a b with
      | isTrue h => isTrue (by rw [h])
      | isFalse h => isFalse (by intro hh; cases hh; exact h rfl)
  | .arr a, .arr b =>
      match jsonDecEqList a b with
      | isTrue h => isTrue (by rw [h])
      | isFalse h => isFalse (by intro hh; cases hh; exact h rfl)
  | .obj a, .obj b =>
      match jsonDecEqFields a b with
      | isTrue h => isTrue (by rw [h])
      | isFalse h => isFalse (by intro hh; cases hh; exact h rfl)
  | .null, .undef => isFalse (fun h => Json.noConfusion h)
  | .null, .bool _ => isFalse (fun h => Json.noConfusion h)
  | .null, .num _ => isFalse (fun h => Json.noConfusion h)
  | .null, .str _ => isFalse (fun h => Json.noConfusion h)
  | .null, .arr _ => isFalse (fun h => Json.noConfusion h)
  | .null, .obj _ => isFalse (fun h => Json.noConfusion h)
  | .undef, .null => isFalse (fun h => Json.noConfusion h)
  | .undef, .bool _ => isFalse (fun h => Json.noConfusion h)
  | .undef, .num _ => isFalse (fun h => Json.noConfusion h)
  | .undef, .str _ => isFalse (fun h => Json.noConfusion h)
  | .undef, .arr _ => isFalse (fun h => Json.noConfusion h)
  | .undef, .obj _ => isFalse (fun h => Json.noConfusion h)
  | .bool _, .null => isFalse (fun h => Json.noConfusion h)
  | .bool _, .undef => isFalse (fun h => Json.noConfusion h)
  | .bool _, .num _ => isFalse (fun h => Json.noConfusion h)
  | .bool _, .str _ => isFalse (fun h => Json.noConfusion h)
  | .bool _, .arr _ => isFalse (fun h => Json.noConfusion h)
  | .bool _, .obj _ => isFalse (fun h => Json.noConfusion h)
  | .num _, .null => isFalse (fun h => Json.noConfusion h)
  | .num _, .undef => isFalse (fun h => Json.noConfusion h)
  | .num _, .bool _ => isFalse (fun h => Json.noConfusion h)
  | .num _, .str _ => isFalse (fun h => Json.noConfusion h)
  | .num _, .arr _ => isFalse (fun h => Json.noConfusion h)
  | .num _, .obj _ => isFalse (fun h => Json.noConfusion h)
  | .str _, .null => isFalse (fun h => Json.noConfusion h)
  | .str _, .undef => isFalse (fun h => Json.noConfusion h)
  | .str _, .bool _ => isFalse (fun h => Json.noConfusion h)
  | .str _, .num _ => isFalse (fun h => Json.noConfusion h)
  | .str _, .arr _ => isFalse (fun h => Json.noConfusion h)
  | .str _, .obj _ => isFalse (fun h => Json.noConfusion h)
  | .arr _, .null => isFalse (fun h => Json.noConfusion h)
  | .arr _, .undef => isFalse (fun h => Json.noConfusion h)
  | .arr _, .bool _ => isFalse (fun h => Json.noConfusion h)
  | .arr _, .num _ => isFalse (fun h => Json.noConfusion h)
  | .arr _, .str _ => isFalse (fun h => Json.noConfusion h)
  | .arr _, .obj _ => isFalse (fun h => Json.noConfusion h)
  | .obj _, .null => isFalse (fun h => Json.noConfusion h)
  | .obj _, .undef => isFalse (fun h => Json.noConfusion h)
  | .obj _, .bool _ => isFalse (fun h => Json.noConfusion h)
  | .obj _, .num _ => isFalse (fun h => Json.noConfusion h)
  | .obj _, .str _ => isFalse (fun h => Json.noConfusion h)
  | .obj _, .arr _ => isFalse (fun h => Json.noConfusion h)

def jsonDecEqList : (a b : List Json) → Decidable (a = b)
  | [], [] => isTrue rfl
  | [], _ :: _ => isFalse (fun h => List.noConfusion h)
  | _ :: _, [] => isFalse (fun h => List.noConfusion h)
  | x :: xs, y :: ys =>
      match jsonDecEq x y with
      | isFalse h => isFalse (by intro hh; cases hh; exact h rfl)
      | isTrue h1 =>
          match jsonDecEqList xs ys with
          | isTrue h2 => isTrue (by rw [h1, h2])
          | isFalse h2 => isFalse (by intro hh; cases hh; exact h2 rfl)

def jsonDecEqFields : (a b : List (String × Json)) → Decidable (a = b)
  | [], [] => isTrue rfl
  | [], _ :: _ => isFalse (fun h => List.noConfusion h)
  | _ :: _, [] => isFalse (fun h => List.noConfusion h)
  | (k1, v1) :: xs, (k2, v2) :: ys =>
      match decEq k1 k2 with
      | isFalse h => isFalse (by intro hh; cases hh; exact h rfl)
      | isTrue hk =>
          match jsonDecEq v1 v2 with
          | isFalse h => isFalse (by intro hh; cases hh; exact h rfl)
          | isTrue hv =>
              match jsonDecEqFields xs ys with
              | isTrue ht => isTrue (by rw [hk, hv, ht])
              | isFalse h => isFalse (by intro hh; cases hh; exact h rfl)

end

instance : DecidableEq Json := jsonDecEq

namespace Json

/-- JavaScript truthiness: `null`, `undefined`, `false`, `0` and `""` are
falsy; every object and array is truthy. -/
def truthy : Json → Bool
  | .null => false
  | .undef => false
  | .bool b => b
  | .num n => n != 0
  | .str s => s != ""
  | .arr _ => true
  | .obj _ => true

/-- `typeof x === 'object'` in JavaScript: true for objects, arrays and
(famously) `null`. -/
def typeofObject : Json → Bool
  | .null => true
  | .arr _ => true
  | .obj _ => true
  | _ => false

/-- `Array.isArray`. -/
def isArr : Json → Bool
  | .arr _ => true
  | _ => false

/-- `typeof x === 'string'`. -/
def isStr : Json → Bool
  | .str _ => true
  | _ => false

/-- `typeof x === 'number'`. -/
def isNum : Json → Bool
  | .num _ => true
  | _ => false

def isObj : Json → Bool
  | .obj _ => true
  | _ => false

end Json

/-- First-match field lookup in an object's field list (JavaScript
objects have unique keys; values we construct keep that invariant, and
lookup of a duplicated key reads the first occurrence). -/
def lookupField : List (String × Json) → String → Option Json
  | [], _ => none
  | (k, v) :: rest, key => if k = key then some v else lookupField rest key

/-- Property access `x[k]` as an `Except`: throws on `null`/`undefined`,
returns `undefined` for missing keys and for every named key on
primitives and arrays (the embedded code never reads numeric indices or
`length` through plain property access). -/
def getProp : Json → String → Except Unit Json
  | .null, _ => .error ()
  | .undef, _ => .error ()
  | .obj fields, k => .ok ((lookupField fields k).getD .undef)
  | _, _ => .ok Json.undef

/-- Pure field accessor used to state theorems about values that are
known to be objects; yields `undefined` elsewhere. -/
def jGet (j : Json) (k : String) : Json :=
  match j with
  | .obj fields => (lookupField fields k).getD .undef
  | _ => Json.undef

/-- `a || b`. -/
def jsOr (a b : Json) : Json :=
  if a.truthy then a else b

/-- Replace the value of key `k` (first occurrence) or append it — the
effect of `obj[k] = v` and of `{...obj, k: v}` on the key order. -/
def upsertField : List (String × Json) → String → Json → List (String × Json)
  | [], key, v => [(key, v)]
  | (k, w) :: rest, key, v =>
      if k = key then (key, v) :: rest else (k, w) :: upsertField rest key v

/-- Own enumerable properties produced by object spread `{...x}`:
fields of an object, indexed elements of an array, indexed characters of
a string, nothing for the other primitives. -/
def spreadFields : Json → List (String × Json)
  | .obj fields => fields
  | .arr xs => (xs.enum.map (fun p => (toString p.1, p.2)))
  | .str s => (s.toList.enum.map (fun p => (toString p.1, Json.str (String.mk [p.2]))))
  | _ => []

/-! ## Zod schema model (src/lib/schemas/research)

The enum value lists of `detail_enums.schema.ts` and
`entity.schema.ts`, and Bool-valued parsers mirroring the Zod schemas
used by `validate.basicStructure` and `validate.analysisData`
(`entityDetailSchema`, `baseEntitySchema`, `companyEntitySchema`,
`recursiveProductEntitySchema`). A Zod `z.object` rejects anything that
is not a plain object, ignores undeclared keys, and treats an absent
key as `undefined`, so `.optional()` fields accept exactly
absent-or-undefined. -/

/-- `researchDetailTypes` of detail_enums.schema.ts. -/
def typeResearchDetailList : List String :=
  ["market_share_min", "market_share_max", "market_share_exact", "market_share_estimate",
   "employee_count_exact", "employee_count_estimate", "employee_count_min", "employee_count_max",
   "churn_rate_estimate", "customer_count_estimate", "active_users_estimate", "arpu_estimate",
   "cac_estimate", "ltv_estimate", "runway_months_estimate",
   "market_size_usd", "market_growth_rate"]

/-- `dataConfidence` of detail_enums.schema.ts. -/
def dataConfidenceList : List String :=
  ["verified", "high", "medium", "low", "speculative"]

/-- `sourceTypes` of detail_enums.schema.ts. -/
def sourceTypeList : List String :=
  ["industry_report", "company_filing", "news_article", "analyst_estimate",
   "company_website", "press_release", "unknown"]

/-- `statusOperating` of entity.schema.ts. -/
def statusOperatingList : List String :=
  ["Active", "Operating", "Closed", "Inactive", "Acquired", "Liquidated",
   "Bankruptcy / Reorganization", "Unknown"]

/-- `z.string().datetime()` (default options: no offset, any precision):
`YYYY-MM-DDTHH:MM:SS(.digits)?Z`, digit-shape only. -/
def isDatetime (s : String) : Bool :=
  match s.toList with
  | y1 :: y2 :: y3 :: y4 :: '-' :: m1 :: m2 :: '-' :: d1 :: d2 :: 'T' ::
      h1 :: h2 :: ':' :: n1 :: n2 :: ':' :: s1 :: s2 :: rest =>
      ([y1, y2, y3, y4, m1, m2, d1, d2, h1, h2, n1, n2, s1, s2].all Char.isDigit) &&
      (match rest with
       | ['Z'] => true
       | '.' :: rest2 =>
           rest2.getLast? = some 'Z' && rest2.dropLast ≠ [] && rest2.dropLast.all Char.isDigit
       | _ => false)
  | _ => false

def isHexChar (c : Char) : Bool :=
  c.isDigit || ('a' ≤ c && c ≤ 'f') || ('A' ≤ c && c ≤ 'F')

def splitOnChar (sep : Char) : List Char → List (List Char)
  | [] => [[]]
  | x :: xs =>
      match splitOnChar sep xs with
      | [] => [[]]
      | g :: gs => if x = sep then [] :: g :: gs else (x :: g) :: gs

/-- `z.string().uuid()`: five hyphen-separated hex groups of sizes
8-4-4-4-12 (case-insensitive; no claim input exercises a UUID string, so
version-digit subtleties of particular Zod releases are not modelled). -/
def isUuid (s : String) : Bool :=
  match splitOnChar '-' s.toList with
  | [g1, g2, g3, g4, g5] =>
      g1.length = 8 && g2.length = 4 && g3.length = 4 && g4.length = 4 && g5.length = 12 &&
      (g1 ++ g2 ++ g3 ++ g4 ++ g5).all isHexChar
  | _ => false

/-- `z.string().url()` delegates to the WHATWG `URL` constructor; the
embedding only checks for an alphabetic scheme followed by a colon
(approximate; no claim involves `source_url`). -/
def isUrlLike (s : String) : Bool :=
  match s.toList with
  | c :: rest => c.isAlpha && rest.contains ':'
  | [] => false

def Json.isUndef : Json → Bool
  | .undef => true
  | _ => false

/-- Field of a Zod-parsed object: an absent key behaves as `undefined`. -/
def fieldVal (fs : List (String × Json)) (k : String) : Json :=
  (lookupField fs k).getD Json.undef

/-- `.optional()`: absent/undefined, or passing the inner check. -/
def okOpt (check : Json → Bool) (v : Json) : Bool :=
  v.isUndef || check v

def checkEnum (values : List String) : Json → Bool
  | .str s => values.contains s
  | _ => false

def checkDatetimeStr : Json → Bool
  | .str s => isDatetime s
  | _ => false

def checkUuidStr : Json → Bool
  | .str s => isUuid s
  | _ => false

def checkUrlStr : Json → Bool
  | .str s => isUrlLike s
  | _ => false

def checkBool : Json → Bool
  | .bool _ => true
  | _ => false

/-- `z.number().int().positive()` (the embedding's numbers are integers,
so `.int()` is automatically satisfied). -/
def checkPositiveInt : Json → Bool
  | .num n => 0 < n
  | _ => false

def checkLen3Str : Json → Bool
  | .str s => s.length = 3
  | _ => false

/-- `entityDetailSchema` of detail.schema.ts. -/
def detailValid : Json → Bool
  | .obj fs =>
      okOpt checkPositiveInt (fieldVal fs "id") &&
      okOpt checkUuidStr (fieldVal fs "entity_id") &&
      checkEnum typeResearchDetailList (fieldVal fs "type_research_detail") &&
      checkEnum dataConfidenceList (fieldVal fs "data_confidence") &&
      checkEnum sourceTypeList (fieldVal fs "source_type") &&
      okOpt checkDatetimeStr (fieldVal fs "as_of_date") &&
      okOpt Json.isNum (fieldVal fs "discrete_value") &&
      okOpt Json.isStr (fieldVal fs "text_value") &&
      okOpt checkDatetimeStr (fieldVal fs "created_at") &&
      okOpt checkDatetimeStr (fieldVal fs "updated_at") &&
      okOpt Json.isStr (fieldVal fs "source") &&
      okOpt checkUrlStr (fieldVal fs "source_url") &&
      okOpt checkDatetimeStr (fieldVal fs "source_date") &&
      okOpt Json.isStr (fieldVal fs "notes")
  | _ => false

/-- The field checks of `baseEntitySchema` of entity.schema.ts
(`id: nullableUuidSchema` is required: a UUID string or `null`). -/
def baseEntityFieldsOk (fs : List (String × Json)) : Bool :=
  (match fieldVal fs "id" with
   | .null => true
   | .str s => isUuid s
   | _ => false) &&
  (fieldVal fs "name_brand").isStr &&
  okOpt Json.isStr (fieldVal fs "name_legal") &&
  okOpt Json.isNum (fieldVal fs "date_year_established") &&
  okOpt Json.isStr (fieldVal fs "file_logo_square") &&
  okOpt Json.isStr (fieldVal fs "file_logo_favicon_square") &&
  okOpt checkBool (fieldVal fs "status_featured") &&
  okOpt checkBool (fieldVal fs "status_hide_page") &&
  okOpt checkBool (fieldVal fs "status_sitemap_show") &&
  okOpt checkBool (fieldVal fs "status_verified") &&
  okOpt checkLen3Str (fieldVal fs "functional_currency") &&
  okOpt Json.isStr (fieldVal fs "type_record") &&
  okOpt Json.isStr (fieldVal fs "slug") &&
  okOpt Json.isStr (fieldVal fs "source_id") &&
  okOpt checkDatetimeStr (fieldVal fs "updated_at") &&
  okOpt checkDatetimeStr (fieldVal fs "created_at") &&
  okOpt checkDatetimeStr (fieldVal fs "updated_at_unified")

/-- `companyEntitySchema` of entity.schema.ts (`urls` and `identifiers`
are arrays of `z.lazy(() => z.any())`, hence any-element arrays). -/
def companyValid : Json → Bool
  | .obj fs =>
      baseEntityFieldsOk fs &&
      okOpt (checkEnum statusOperatingList) (fieldVal fs "status_operating") &&
      okOpt Json.isArr (fieldVal fs "urls") &&
      okOpt Json.isArr (fieldVal fs "identifiers") &&
      okOpt (fun v => match v with | .arr xs => xs.all detailValid | _ => false)
        (fieldVal fs "details")
  | _ => false

mutual

/-- `recursiveProductEntitySchema` of dataProcessing.ts:
`productEntitySchema` (= `baseEntitySchema` + optional `details` and
`company`) extended with an optional recursive `competitors` array. -/
def productValid : Json → Bool
  | .obj fs =>
      baseEntityFieldsOk fs &&
      okOpt (fun v => match v with | .arr xs => xs.all detailValid | _ => false)
        (fieldVal fs "details") &&
      okOpt companyValid (fieldVal fs "company") &&
      prodCompetitorsOk fs
  | _ => false

/-- Scan of the field list for the `competitors` key (first match). -/
def prodCompetitorsOk : List (String × Json) → Bool
  | [] => true
  | (k, v) :: rest =>
      if k = "competitors" then competitorsValOk v else prodCompetitorsOk rest

def competitorsValOk : Json → Bool
  | .undef => true
  | .arr xs => productListValid xs
  | _ => false

def productListValid : List Json → Bool
  | [] => true
  | x :: xs => productValid x && productListValid xs

end

/-- `validate.analysisData` of dataProcessing.ts as a pass/fail check:
Zod-parses against the inline `analysisDataSchema` (root entity with
required nullable-string `id`, required string `name_brand`, optional
details and recursive products, optional `_meta` with optional cost
block and validation tag). The embedding returns the `isValid` flag;
the error-message list of a failing parse is not modelled, and no claim
depends on it. -/
def analysisDataValid : Json → Bool
  | .obj fs =>
      (match fieldVal fs "entity" with
       | .obj efs =>
           (match fieldVal efs "id" with
            | .null => true
            | .str _ => true
            | _ => false) &&
           (fieldVal efs "name_brand").isStr &&
           (match fieldVal efs "details" with
            | .undef => true
            | .arr xs => xs.all detailValid
            | _ => false) &&
           (match fieldVal efs "products" with
            | .undef => true
            | .arr xs => productListValid xs
            | _ => false)
       | _ => false) &&
      (match fieldVal fs "_meta" with
       | .undef => true
       | .obj mfs =>
           (match fieldVal mfs "cost" with
            | .undef => true
            | .obj cfs =>
                (fieldVal cfs "totalTokens").isNum && (fieldVal cfs "costUSD").isNum
            | _ => false) &&
           (match fieldVal mfs "validation" with
            | .undef => true
            | .str _ => true
            | _ => false)
       | _ => false)
  | _ => false

/-- `validate.basicStructure` of dataProcessing.ts as a pass/fail
check: entity must be an object; its `name_brand` (string), `details`
(array of unknown) and `products` (array of unknown) are all optional. -/
def basicStructureValid : Json → Bool
  | .obj fs =>
      (match fieldVal fs "entity" with
       | .obj efs =>
           okOpt Json.isStr (fieldVal efs "name_brand") &&
           okOpt Json.isArr (fieldVal efs "details") &&
           okOpt Json.isArr (fieldVal efs "products")
       | _ => false)
  | _ => false

/-! ## Repair engine (`repairAnalysisData` of dataProcessing.ts)

The `debug` parameter of the source only gates `console` logging and is
dropped. `new Date().toISOString().split('T')[0]` — the current date as
a `YYYY-MM-DD` string — is passed in as the `today` parameter.
Exceptions raised inside the source's `try` block are the `Except`
errors; the surrounding `catch` is the `match` in `repairAnalysisData`
that resolves them to the default structure. -/

def defaultMeta : Json :=
  .obj [("cost", .obj [("totalTokens", .num 0), ("costUSD", .num 0)])]

/-- The hardcoded minimal structure `defaultData`. -/
def defaultData : Json :=
  .obj [("entity", .obj [("id", .null), ("name_brand", .str "Unknown Company"),
          ("details", .arr []), ("products", .arr [])]),
        ("_meta", defaultMeta)]

/-- Effect-ordered map over `Except` (what `Array.prototype.map` does
when a callback can throw: the first throw aborts the whole map). -/
def mapME (f : Json → Except Unit Json) : List Json → Except Unit (List Json)
  | [] => .ok []
  | x :: xs => do
      let y ← f x
      let ys ← mapME f xs
      .ok (y :: ys)

/-- The key resolution of `getDetailProperty` on an object's fields:
`snakeCaseKey in obj && obj[snakeCaseKey] !== undefined` first, then the
camelCase key, then the default. -/
def gdpVal (fs : List (String × Json)) (snakeCaseKey camelCaseKey : String)
    (defaultValue : Json) : Json :=
  match lookupField fs snakeCaseKey with
  | some v =>
      if v.isUndef then
        match lookupField fs camelCaseKey with
        | some w => if w.isUndef then defaultValue else w
        | none => defaultValue
      else v
  | none =>
      match lookupField fs camelCaseKey with
      | some w => if w.isUndef then defaultValue else w
      | none => defaultValue

/-- `getDetailProperty`: key resolution per `gdpVal`; the `in` operator
throws a TypeError on anything that is not an object or an array (an
array has no such own keys, so both lookups miss). -/
def getDetailProperty (d : Json) (snakeCaseKey camelCaseKey : String) (defaultValue : Json) :
    Except Unit Json :=
  match d with
  | .obj fs => .ok (gdpVal fs snakeCaseKey camelCaseKey defaultValue)
  | .arr _ => .ok defaultValue
  | _ => .error ()

/-- The detail object built by the entity-level mapping from a
non-`null`/`undefined` element `d`. -/
def buildDetailEntity (today : String) (d : Json) : Json :=
  Json.obj [
    ("type_research_detail",
      jsOr (jGet d "type_research_detail")
        (jsOr (jGet d "typeResearchDetail") (.str "market_share_estimate"))),
    ("data_confidence",
      jsOr (jGet d "data_confidence") (jsOr (jGet d "dataConfidence") (.str "medium"))),
    ("source_type",
      jsOr (jGet d "source_type") (jsOr (jGet d "sourceType") (.str "analyst_estimate"))),
    ("as_of_date",
      jsOr (jGet d "as_of_date") (jsOr (jGet d "asOfDate") (.str today))),
    ("discrete_value",
      if (jGet d "discrete_value").isNum then jGet d "discrete_value"
      else if (jGet d "discreteValue").isNum then jGet d "discreteValue" else .undef),
    ("text_value",
      if (jGet d "text_value").isStr then jGet d "text_value"
      else if (jGet d "textValue").isStr then jGet d "textValue" else .undef)]

/-- Entity-level detail mapping of repair Case 1: each field is read
snake_case-then-camelCase by `||` (truthiness), except `discrete_value`
and `text_value` which are `typeof`-checked. Throws iff the element is
`null`/`undefined` (property access on it throws); property reads on
any other value are total (`jGet`). -/
def repairDetailEntity (today : String) (detail : Json) : Except Unit Json :=
  match detail with
  | .null => .error ()
  | .undef => .error ()
  | d => .ok (buildDetailEntity today d)

/-- The detail object built by the product/competitor-level mapping
from an object element's fields. -/
def buildDetailProduct (today : String) (fs : List (String × Json)) : Json :=
  Json.obj [
    ("type_research_detail",
      gdpVal fs "type_research_detail" "typeResearchDetail" (.str "market_share_estimate")),
    ("data_confidence", gdpVal fs "data_confidence" "dataConfidence" (.str "medium")),
    ("source_type", gdpVal fs "source_type" "sourceType" (.str "analyst_estimate")),
    ("as_of_date", gdpVal fs "as_of_date" "asOfDate" (.str today)),
    ("discrete_value",
      if (fieldVal fs "discrete_value").isNum then fieldVal fs "discrete_value"
      else if (fieldVal fs "discreteValue").isNum then fieldVal fs "discreteValue"
      else .undef),
    ("text_value",
      if (fieldVal fs "text_value").isStr then fieldVal fs "text_value"
      else if (fieldVal fs "textValue").isStr then fieldVal fs "textValue" else .undef)]

/-- The all-defaults detail object the product-level mapping builds
from an array element (`in` misses, `typeof` checks fail). -/
def constDetailProduct (today : String) : Json :=
  Json.obj [
    ("type_research_detail", .str "market_share_estimate"),
    ("data_confidence", .str "medium"),
    ("source_type", .str "analyst_estimate"),
    ("as_of_date", .str today),
    ("discrete_value", .undef),
    ("text_value", .undef)]

/-- Product- and competitor-level detail mapping of repair Case 1: the
four leading fields go through `getDetailProperty`, the two value
fields through `typeof` checks. Throws iff the element is not an
object/array (`in` on a primitive or on `null`/`undefined`). -/
def repairDetailProduct (today : String) (d : Json) : Except Unit Json :=
  match d with
  | .obj fs => .ok (buildDetailProduct today fs)
  | .arr _ => .ok (constDetailProduct today)
  | _ => .error ()

/-- Competitor mapping of repair Case 1. Property reads on the guarded
truthy object are total. -/
def repairCompetitor1 (today : String) (comp : Json) : Except Unit Json :=
  if comp.truthy && comp.typeofObject then do
    let dts ← (match jGet comp "details" with
      | .arr xs => mapME (repairDetailProduct today) xs
      | _ => pure [])
    .ok (Json.obj [("id", .null),
      ("name_brand",
        if (jGet comp "name_brand").isStr then jGet comp "name_brand"
        else if (jGet comp "nameBrand").isStr then jGet comp "nameBrand"
        else .str "Unknown Competitor"),
      ("details", .arr dts)])
  else
    .ok (Json.obj [("id", .null), ("name_brand", .str "Unknown Competitor"),
      ("details", .arr [])])

/-- Product mapping of repair Case 1. A non-object element is replaced
by the three-key substitute (which carries no `competitors` key, unlike
the four-key object branch). -/
def repairProduct1 (today : String) (product : Json) : Except Unit Json :=
  if product.truthy && product.typeofObject then do
    let dts ← (match jGet product "details" with
      | .arr xs => mapME (repairDetailProduct today) xs
      | _ => pure [])
    let comps ← (match jGet product "competitors" with
      | .arr xs => mapME (repairCompetitor1 today) xs
      | _ => pure [])
    .ok (Json.obj [("id", .null),
      ("name_brand",
        if (jGet product "name_brand").isStr then jGet product "name_brand"
        else if (jGet product "nameBrand").isStr then jGet product "nameBrand"
        else .str "Unknown Product"),
      ("details", .arr dts),
      ("competitors", .arr comps)])
  else
    .ok (Json.obj [("id", .null), ("name_brand", .str "Unknown Product"),
      ("details", .arr [])])

/-- Case 1 (modern entity shape). `entityData` is `rawData.entity`,
known truthy and `typeof 'object'`, so plain property reads on it cannot
throw (total `jGet`); reads on nested elements can. -/
def repairCase1 (today : String) (rawData entityData : Json) : Except Unit Json := do
  let dts ← (match jGet entityData "details" with
    | .arr xs => mapME (repairDetailEntity today) xs
    | _ => pure [])
  let prods ← (match jGet entityData "products" with
    | .arr xs => mapME (repairProduct1 today) xs
    | _ => pure [])
  let mv := jGet rawData "_meta"
  .ok (Json.obj [
    ("entity", .obj [("id", .null),
      ("name_brand",
        if (jGet entityData "name_brand").isStr then jGet entityData "name_brand"
        else if (jGet entityData "nameBrand").isStr then jGet entityData "nameBrand"
        else .str "Unknown Company"),
      ("details", .arr dts),
      ("products", .arr prods)]),
    ("_meta", if mv.truthy && mv.typeofObject then mv else defaultMeta)])

/-- Competitor mapping of repair Case 2 (legacy flat shape); `idx` is
the element index. -/
def repairCompetitor2 (idx : Nat) (comp : Json) : Json :=
  if comp.truthy && comp.typeofObject then
    let cn := jsOr (jGet comp "name") (jsOr (jGet comp "competitor_name")
      (jsOr (jGet comp "name_brand") (jsOr (jGet comp "nameBrand")
        (.str ("Competitor " ++ toString (idx + 1))))))
    Json.obj [("id", .null),
      ("name_brand", if cn.isStr then cn else .str ("Competitor " ++ toString (idx + 1))),
      ("details", .arr [])]
  else
    Json.obj [("id", .null), ("name_brand", .str ("Competitor " ++ toString (idx + 1))),
      ("details", .arr [])]

/-- The Case-2 product-name extraction: `name`, `product_name`,
`name_brand`, `nameBrand` by truthiness, indexed default, then the
`typeof === 'string'` check. -/
def case2ProductName (idx : Nat) (product : Json) : Json :=
  let pn := jsOr (jGet product "name") (jsOr (jGet product "product_name")
    (jsOr (jGet product "name_brand") (jsOr (jGet product "nameBrand")
      (.str ("Product " ++ toString (idx + 1))))))
  if pn.isStr then pn else .str ("Product " ++ toString (idx + 1))

/-- The Case-2 competitor list of a product element. -/
def case2Competitors (product : Json) : List Json :=
  match jGet product "competitors" with
  | .arr xs => xs.enum.map (fun p => repairCompetitor2 p.1 p.2)
  | _ => []

/-- Product mapping of repair Case 2: `details` is always empty in the
legacy branch; a non-object element gets the three-key substitute. -/
def repairProduct2 (idx : Nat) (product : Json) : Json :=
  if product.truthy && product.typeofObject then
    Json.obj [("id", .null),
      ("name_brand", case2ProductName idx product),
      ("details", .arr []),
      ("competitors", .arr (case2Competitors product))]
  else
    Json.obj [("id", .null), ("name_brand", .str ("Product " ++ toString (idx + 1))),
      ("details", .arr [])]

/-- Case 2 (legacy flat shape): `rawData.products` is known to be an
array (`prodElems`); `_meta` is never copied in this branch. Nothing in
this branch can throw. -/
def repairCase2 (rawData : Json) (prodElems : List Json) : Json :=
  let cObj := jGet rawData "company"
  let companyName := jsOr
    (if cObj.typeofObject && cObj.truthy then
       jsOr (jGet cObj "name") (jsOr (jGet cObj "company_name") (jGet cObj "trade_name"))
     else .null)
    (jsOr (jGet rawData "company_name") (jsOr (jGet rawData "name")
      (jsOr (jGet rawData "trade_name") (.str "Unknown Company"))))
  Json.obj [
    ("entity", .obj [("id", .null),
      ("name_brand", if companyName.isStr then companyName else .str "Unknown Company"),
      ("details", .arr []),
      ("products", .arr (prodElems.enum.map (fun p => repairProduct2 p.1 p.2)))]),
    ("_meta", defaultMeta)]

/-- Case 1 trigger: `rawData.entity && typeof rawData.entity ===
'object'`. -/
def matchesCase1 (rawData : Json) : Bool :=
  (jGet rawData "entity").truthy && (jGet rawData "entity").typeofObject

/-- Case 2 trigger: `(rawData.company || rawData.company_name ||
rawData.name) && Array.isArray(rawData.products)`. -/
def matchesCase2 (rawData : Json) : Bool :=
  ((jGet rawData "company").truthy || (jGet rawData "company_name").truthy ||
    (jGet rawData "name").truthy) && (jGet rawData "products").isArr

/-- Body of the source's `try` block: Case 1 if `rawData.entity` is a
truthy object, else Case 2 if a company marker is truthy and
`rawData.products` is an array, else the warned fallback to the default
structure (a normal return, not a throw). -/
def repairTry (today : String) (rawData : Json) : Except Unit Json :=
  if matchesCase1 rawData then
    repairCase1 today rawData (jGet rawData "entity")
  else if matchesCase2 rawData then
    .ok (repairCase2 rawData (match jGet rawData "products" with | .arr xs => xs | _ => []))
  else
    .ok defaultData

/-- `repairAnalysisData` — the repair engine. Inputs that are falsy or
not `typeof 'object'` short-circuit to the default structure; any
exception inside the `try` block is caught and also resolves to the
default structure. -/
def repairAnalysisData (today : String) (data : Json) : Json :=
  if data.truthy && data.typeofObject then
    match repairTry today data with
    | .ok r => r
    | .error _ => defaultData
  else defaultData

/-! ## Pipeline orchestrator (`processCompanyAnalysis` of openai.ts)

The LLM transport (`callOpenAIWithSchema`) is an external collaborator;
its outcome enters the model as an `Except Unit (Json × Json)` — either
a thrown transport error or a resolved `(data, cost)` pair. `today` is
again the date string the source obtains from `new Date()`. -/

/-- `obj[k] = v` on a value known to be an object; other values are
returned unchanged (the embedded call sites only reach this on
objects). -/
def setField (j : Json) (k : String) (v : Json) : Json :=
  match j with
  | .obj fs => .obj (upsertField fs k v)
  | _ => j

/-- `{...base, k: v}`. -/
def spreadSet1 (base : Json) (k : String) (v : Json) : Json :=
  .obj (upsertField (spreadFields base) k v)

/-- `{...base, k1: v1, k2: v2}`. -/
def spreadSet2 (base : Json) (k1 : String) (v1 : Json) (k2 : String) (v2 : Json) : Json :=
  .obj (upsertField (upsertField (spreadFields base) k1 v1) k2 v2)

/-- `finalizeAnalysisData`: unless `skipValidation`, repair
unconditionally and tag `_meta.validation = 'repaired'` (guarded by
`if (repairedData._meta)`; repair output always carries a truthy
`_meta`). A copied `_meta` that is an array would in JavaScript accept
the string-keyed assignment; the embedding leaves an array `_meta`
unchanged — no claim exercises that edge. -/
def finalizeAnalysisData (today : String) (skipValidation : Bool) (analysisData : Json) : Json :=
  if skipValidation then analysisData
  else
    let repaired := repairAnalysisData today analysisData
    match repaired with
    | .obj fs =>
        let mv := fieldVal fs "_meta"
        if mv.truthy then
          match mv with
          | .obj mfs =>
              .obj (upsertField fs "_meta" (.obj (upsertField mfs "validation" (.str "repaired"))))
          | _ => repaired
        else repaired
    | _ => repaired

/-- The `repairedOpenAI` branch of the `sourceType` switch: validate;
if valid, return the data with `{..._meta, validation:
'valid_at_source'}`; if invalid, return the repaired data with its
`_meta` replaced by `{...originalMeta, validation: 'repaired'}` (note:
the spread reads the ORIGINAL result's `_meta`, not the repair
output's). -/
def repairedBranch (today : String) (analysisData : Json) : Json :=
  let metadata := spreadSet1 (jGet analysisData "_meta") "validation"
    (.str (if analysisDataValid analysisData then "valid_at_source" else "repaired"))
  if analysisDataValid analysisData then spreadSet1 analysisData "_meta" metadata
  else spreadSet1 (repairAnalysisData today analysisData) "_meta" metadata

/-- The `sourceType` switch of `processCompanyAnalysis`, applied to the
generation strategy's output. The Zod error-message list attached as
`validationErrors` by the `validatedOpenAI` branch is modelled as an
empty array (no claim reads it); the `validation` tag is exact. -/
def processSourceType (today : String) (sourceType : String) (skipValidation : Bool)
    (analysisData : Json) : Json :=
  if sourceType = "rawOpenAI" then
    analysisData
  else if sourceType = "validatedOpenAI" then
    let ok := analysisDataValid analysisData
    spreadSet1 analysisData "_meta"
      (spreadSet2 (jGet analysisData "_meta")
        "validation" (.str (if ok then "passed" else "failed"))
        "validationErrors" (.arr []))
  else if sourceType = "repairedOpenAI" then
    repairedBranch today analysisData
  else
    finalizeAnalysisData today skipValidation analysisData

/-- `processSingleStepAnalysis` after the LLM call resolved or threw:
a thrown call is rethrown; on success the cost block is attached
(`if (!parsedData._meta) parsedData._meta = {}` then
`parsedData._meta.cost = {...}`; in strict mode both assignments throw
on a primitive target, which the surrounding catch rethrows). An array
target would accept the assignment in JavaScript; the embedding leaves
arrays unchanged — no claim exercises that edge. -/
def processSingleStepAnalysis (outcome : Except Unit (Json × Json)) : Except Unit Json :=
  match outcome with
  | .error e => .error e
  | .ok (parsedData, cost) => do
      let costObj : Json := .obj [("totalTokens", jGet cost "totalTokens"),
                                  ("costUSD", jGet cost "costUSD")]
      let mv ← getProp parsedData "_meta"
      if mv.truthy then
        match mv with
        | .obj mfs => .ok (setField parsedData "_meta" (.obj (upsertField mfs "cost" costObj)))
        | .arr _ => .ok parsedData
        | _ => .error ()
      else
        match parsedData with
        | .obj fs => .ok (.obj (upsertField fs "_meta" (.obj [("cost", costObj)])))
        | .arr _ => .ok parsedData
        | _ => .error ()

/-- Outcome of `getBasicCompanyInfo` as consumed by the multi-step
strategy. -/
structure BasicInfoM where
  company_name : Json
  main_products : List Json
  main_competitors : List Json
  cost : Json

/-- `getBasicCompanyInfo`: on any thrown LLM call (or any throw inside
the `try`, e.g. reading a property of a `null` payload), the catch
provides default values — company name echoed back, empty product and
competitor lists, zero cost — "to allow analysis to continue". -/
def getBasicCompanyInfo (companyName : String) (outcome : Except Unit (Json × Json)) :
    BasicInfoM :=
  match (do
    let (data, cost) ← outcome
    let cn ← getProp data "company_name"
    let mp ← getProp data "main_products"
    let mc ← getProp data "main_competitors"
    Except.ok
      { company_name := jsOr cn (.str companyName)
        main_products := match mp with | .arr xs => xs | _ => []
        main_competitors := match mc with | .arr xs => xs | _ => []
        cost := cost } : Except Unit BasicInfoM) with
  | .ok r => r
  | .error _ =>
      { company_name := .str companyName
        main_products := []
        main_competitors := []
        cost := .obj [("totalTokens", .num 0), ("costUSD", .num 0)] }

/-- The per-product skeleton pushed by `processMultiStepAnalysis`: one
synthetic `market_share_estimate` detail, and one competitor skeleton
per basic-info competitor name. -/
def productSkeleton (companyName today : String) (productName : Json)
    (competitors : List Json) : Json :=
  .obj [("id", .null),
    ("name_brand", productName),
    ("details", .arr [.obj [
      ("type_research_detail", .str "market_share_estimate"),
      ("data_confidence", .str "high"),
      ("source_type", .str "analyst_estimate"),
      ("as_of_date", .str today),
      ("text_value", .str ("Product offered by " ++ companyName))]]),
    ("competitors", .arr (competitors.map (fun competitor =>
      .obj [("id", .null), ("name_brand", competitor), ("details", .arr [])])))]

/-- `processMultiStepAnalysis`: one basic-info LLM call, then in-process
assembly of the skeleton result (the per-product `try/catch` has no
failing operation to catch in the loop body). -/
def processMultiStepAnalysis (companyName today : String)
    (outcome : Except Unit (Json × Json)) : Json :=
  let basicInfo := getBasicCompanyInfo companyName outcome
  .obj [
    ("entity", .obj [
      ("id", .null),
      ("name_brand", basicInfo.company_name),
      ("products", .arr (basicInfo.main_products.map (fun productName =>
        productSkeleton companyName today productName basicInfo.main_competitors))),
      ("details", .arr [])]),
    ("_meta", .obj [("cost", .obj [
      ("totalTokens", jGet basicInfo.cost "totalTokens"),
      ("costUSD", jGet basicInfo.cost "costUSD")])])]

/-- `processCompanyAnalysis`: run the selected generation strategy
(default `single`), then the `sourceType` switch (default
`transformedOpenAI`). The outer `try/catch` logs and rethrows, so a
strategy error propagates to the caller. -/
def processCompanyAnalysis (companyName : String) (strategy sourceType : String)
    (skipValidation : Bool) (today : String) (outcome : Except Unit (Json × Json)) :
    Except Unit Json :=
  match (if strategy = "multi" then .ok (processMultiStepAnalysis companyName today outcome)
         else processSingleStepAnalysis outcome) with
  | .error e => .error e
  | .ok analysisData => .ok (processSourceType today sourceType skipValidation analysisData)

/-! ## Enrichment helper `extractCompetitors` of dataProcessing.ts

`transformToEnhancedCompanyData` flattens the competitors of all
products into one deduplicated list. The function is typed against
`RecursiveProductEntity`, whose fields the loop reads; the embedding
mirrors that typed view (optional fields as `Option`). -/

structure RDetail where
  type_research_detail : Option String
  data_confidence : Option String
  source_type : Option String
  as_of_date : Option String
  discrete_value : Option Int
  text_value : Option String
  deriving DecidableEq

inductive REntity where
  | mk (name_brand : String) (details : Option (List RDetail))
       (competitors : Option (List REntity))

def REntity.name_brand : REntity → String
  | .mk n _ _ => n

def REntity.details : REntity → Option (List RDetail)
  | .mk _ d _ => d

def REntity.competitors : REntity → Option (List REntity)
  | .mk _ _ c => c

structure CompetitorUI where
  name : String
  marketShare : Int
  primaryCompetition : String
  deriving DecidableEq

/-- `t.includes(needle)` — substring test. -/
def strIncludes (t needle : String) : Bool :=
  (List.range (t.toList.length + 1)).any
    (fun i => (t.toList.drop i).take needle.toList.length = needle.toList)

/-- The market-share lookup of the competitor loop: the first detail
whose type contains `market_share` and whose `discrete_value` is
defined; default 5. -/
def marketShareOf (details : Option (List RDetail)) : Int :=
  match details with
  | none => 5
  | some ds =>
      match ds.find? (fun d =>
        (match d.type_research_detail with
         | some t => strIncludes t "market_share"
         | none => false) && d.discrete_value.isSome) with
      | some d => d.discrete_value.getD 5
      | none => 5

/-- `competitor.name_brand || 'Unknown Competitor'`. -/
def competitorKeyName (c : REntity) : String :=
  if c.name_brand = "" then "Unknown Competitor" else c.name_brand

/-- `Competitor for ${product.name_brand || 'this product'}`. -/
def primaryCompetitionFor (productName : String) : String :=
  "Competitor for " ++ (if productName = "" then "this product" else productName)

/-- `competitorMap.has(name)` — the map is keyed by competitor name. -/
def hasName : List CompetitorUI → String → Bool
  | [], _ => false
  | c :: cs, n => if c.name = n then true else hasName cs n

/-- The record inserted into the map for a competitor occurring under
the product named `productName`. -/
def mkCompetitorUI (productName : String) (c : REntity) : CompetitorUI :=
  { name := competitorKeyName c, marketShare := marketShareOf c.details,
    primaryCompetition := primaryCompetitionFor productName }

/-- Inner competitor loop: skip names already in the map, else insert
(JavaScript `Map` preserves insertion order, so the map is a list with
first-wins append). -/
def addCompetitors (productName : String) (acc : List CompetitorUI) :
    List REntity → List CompetitorUI
  | [] => acc
  | c :: cs =>
      if hasName acc (competitorKeyName c) then addCompetitors productName acc cs
      else addCompetitors productName (acc ++ [mkCompetitorUI productName c]) cs

/-- Outer product loop (`continue` on a missing or empty competitor
list). -/
def extractCompetitorsLoop (acc : List CompetitorUI) : List REntity → List CompetitorUI
  | [] => acc
  | p :: ps =>
      match p.competitors with
      | none => extractCompetitorsLoop acc ps
      | some cs =>
          if cs.isEmpty then extractCompetitorsLoop acc ps
          else extractCompetitorsLoop (addCompetitors p.name_brand acc cs) ps

/-- `extractCompetitors` (`utils.isValidArray` short-circuits an empty
product list). -/
def extractCompetitors (products : List REntity) : List CompetitorUI :=
  if products.isEmpty then [] else extractCompetitorsLoop [] products

/-! ## Observers and claim-side models -/

def exceptOk : Except Unit Json → Bool
  | .ok _ => true
  | .error _ => false

/-- The product list of an AnalysisResult-shaped value. -/
def productsOf (j : Json) : List Json :=
  match jGet (jGet j "entity") "products" with
  | .arr ps => ps
  | _ => []

/-- A product-role Entity and its competitors all carry `id = null`. -/
def prodIdsNull (p : Json) : Bool :=
  (jGet p "id" == Json.null) &&
  (match jGet p "competitors" with
   | .arr cs => cs.all (fun c => jGet c "id" == Json.null)
   | _ => true)

/-- Every Entity `id` produced by the pipeline — root, products,
competitors — is `null` (the shape the null-id invariant quantifies
over). -/
def allIdsNull (j : Json) : Bool :=
  match jGet j "entity" with
  | .obj efs =>
      (fieldVal efs "id" == Json.null) &&
      (match fieldVal efs "products" with
       | .arr ps => ps.all prodIdsNull
       | _ => true)
  | _ => false

/-- Modelled from the claim's words (C7): "repairAnalysisData's output
with `_meta.validation` set to the tag" — set the validation key inside
the value's own `_meta`, leaving everything else of that value intact.
Compared against what the `repairedOpenAI` branch actually returns. -/
def setMetaValidation (j : Json) (tag : String) : Json :=
  match j with
  | .obj fs =>
      .obj (upsertField fs "_meta"
        (match fieldVal fs "_meta" with
         | .obj mfs => .obj (upsertField mfs "validation" (.str tag))
         | _ => .obj [("validation", .str tag)]))
  | _ => j

/-- A structurally well-formed AnalysisResult whose single detail
carries `s` as its `type_research_detail` (used for the enum-leniency
claim). -/
def enumProbe (s : String) : Json :=
  .obj [("entity", .obj [("id", .null), ("name_brand", .str "Acme"),
    ("details", .arr [.obj [("type_research_detail", .str s),
      ("data_confidence", .str "medium"), ("source_type", .str "analyst_estimate")]]),
    ("products", .arr [])])]

/-! ## Spec-side formulation of competitor flattening (C10)

Modelled from the claim's words: flatten all competitor occurrences
across products in iteration order, keep only the first occurrence of
each (normalized) name, and derive each kept entry's fields from that
first occurrence. -/

/-- All (product name, competitor) occurrences in iteration order. -/
def allOccurrences (products : List REntity) : List (String × REntity) :=
  products.flatMap (fun p => (p.competitors.getD []).map (fun c => (p.name_brand, c)))

/-- A name is among the already-kept ones. -/
def nameSeen : List String → String → Bool
  | [], _ => false
  | m :: ms, n => if m = n then true else nameSeen ms n

/-- First-occurrence-wins walk over the flattened occurrence list:
`seen` holds the names already kept. -/
def specOcc (seen : List String) : List (String × REntity) → List CompetitorUI
  | [] => []
  | (pn, c) :: rest =>
      if nameSeen seen (competitorKeyName c) then specOcc seen rest
      else mkCompetitorUI pn c :: specOcc (competitorKeyName c :: seen) rest

/-- The names `specOcc` has kept after a chunk of occurrences. -/
def namesAfter (seen : List String) : List (String × REntity) → List String
  | [] => seen
  | (_, c) :: rest =>
      if nameSeen seen (competitorKeyName c) then namesAfter seen rest
      else namesAfter (competitorKeyName c :: seen) rest

/-- Modelled from the claim's words: the deduplicated competitor list,
defined by first occurrence over the flattened product×competitor
sequence. -/
def extractCompetitorsSpec (products : List REntity) : List CompetitorUI :=
  if products.isEmpty then [] else specOcc [] (allOccurrences products)

/-! ## Sanity checks of the embedding (spec §8 scenarios) -/

example : repairAnalysisData "2026-10-11" .null = defaultData := by decide
example : repairAnalysisData "2026-10-11" (.num 42) = defaultData := by decide
example : repairAnalysisData "2026-10-11" (.str "str") = defaultData := by decide
example : repairAnalysisData "2026-10-11" (.arr []) = defaultData := by decide
example : repairAnalysisData "2026-10-11" (.obj []) = defaultData := by decide
example : isDatetime "2024-01-01T00:00:00Z" = true := by decide
example : isDatetime "2024-01-01" = false := by decide
example : isUuid "123e4567-e89b-12d3-a456-426614174000" = true := by decide
example :
    jGet (jGet (repairAnalysisData "2026-10-11"
      (.obj [("company_name", .str "Acme"),
             ("products", .arr [.obj [("name", .str "Widget")]])])) "entity") "name_brand"
      = .str "Acme" := by decide
example : analysisDataValid (.obj [("entity", .obj [("name_brand", .str "Acme")])]) = false := by
  decide
example : analysisDataValid defaultData = true := by decide

/-! ## Shared lemmas -/

theorem exbind_ok {α β : Type} {x : Except Unit α} {f : α → Except Unit β} {r : β}
    (h : (x >>= f) = .ok r) : ∃ a, x = .ok a ∧ f a = .ok r := by
  cases x with
  | ok a => exact ⟨a, rfl, h⟩
  | error e => simp [Bind.bind, Except.bind] at h

theorem mapME_ok_mem {f : Json → Except Unit Json} :
    ∀ {xs ys : List Json}, mapME f xs = .ok ys → ∀ y ∈ ys, ∃ x ∈ xs, f x = .ok y := by
  intro xs
  induction xs with
  | nil =>
      intro ys h y hy
      simp [mapME] at h
      subst h
      simp at hy
  | cons x xs ih =>
      intro ys h y hy
      simp only [mapME] at h
      obtain ⟨a, ha, h2⟩ := exbind_ok h
      obtain ⟨as, has, h3⟩ := exbind_ok h2
      cases h3
      rcases List.mem_cons.mp hy with h | h
      · exact ⟨x, List.mem_cons_self x xs, h ▸ ha⟩
      · obtain ⟨x0, hx0, hfx0⟩ := ih has y h
        exact ⟨x0, List.mem_cons_of_mem x hx0, hfx0⟩

theorem mapME_fix {f : Json → Except Unit Json} :
    ∀ {ys : List Json}, (∀ y ∈ ys, f y = .ok y) → mapME f ys = .ok ys := by
  intro ys
  induction ys with
  | nil => intro; rfl
  | cons y ys ih =>
      intro h
      simp only [mapME]
      rw [h y (List.mem_cons_self y ys), ih (fun z hz => h z (List.mem_cons_of_mem y hz))]
      rfl

theorem lookupField_upsert_self (fs : List (String × Json)) (k : String) (v : Json) :
    lookupField (upsertField fs k v) k = some v := by
  induction fs with
  | nil => simp [upsertField, lookupField]
  | cons p rest ih =>
      obtain ⟨k1, v1⟩ := p
      by_cases h : k1 = k
      · subst h; simp [upsertField, lookupField]
      · simp [upsertField, lookupField, h, ih]

theorem lookupField_upsert_ne (fs : List (String × Json)) (k k1 : String) (v : Json)
    (h : k1 ≠ k) : lookupField (upsertField fs k v) k1 = lookupField fs k1 := by
  induction fs with
  | nil =>
      simp only [upsertField, lookupField]
      rw [if_neg (fun hh => h hh.symm)]
  | cons p rest ih =>
      obtain ⟨k2, v2⟩ := p
      by_cases h2 : k2 = k
      · subst h2
        simp only [upsertField, if_pos rfl, lookupField]
        rw [if_neg (fun hh => h hh.symm), if_neg (fun hh => h hh.symm)]
      · simp only [upsertField, if_neg h2, lookupField]
        by_cases h3 : k2 = k1 <;> simp [h3, ih]

theorem productListValid_mem : ∀ {xs : List Json}, productListValid xs = true →
    ∀ x ∈ xs, productValid x = true := by
  intro xs
  induction xs with
  | nil => intro _ x hx; simp at hx
  | cons a as ih =>
      intro h x hx
      rw [productListValid] at h
      simp only [Bool.and_eq_true] at h
      rcases List.mem_cons.mp hx with h1 | h1
      · subst h1; exact h.1
      · exact ih h.2 x h1

theorem productValid_obj {x : Json} (h : productValid x = true) :
    x.truthy && x.typeofObject = true := by
  cases x with
  | obj fs => rfl
  | null => exact absurd h (by decide)
  | undef => exact absurd h (by decide)
  | bool b =>
      have e : productValid (.bool b) = false := rfl
      rw [e] at h; cases h
  | num n =>
      have e : productValid (.num n) = false := rfl
      rw [e] at h; cases h
  | str s =>
      have e : productValid (.str s) = false := rfl
      rw [e] at h; cases h
  | arr xs =>
      have e : productValid (.arr xs) = false := rfl
      rw [e] at h; cases h

theorem validStructure {v : Json} (h : analysisDataValid v = true) :
    ∃ fs efs, v = .obj fs ∧ fieldVal fs "entity" = .obj efs ∧
      (∀ ps, fieldVal efs "products" = .arr ps →
        ∀ p ∈ ps, (p.truthy && p.typeofObject) = true) := by
  cases v with
  | obj fs =>
      cases he : fieldVal fs "entity" with
      | obj efs =>
          refine ⟨fs, efs, rfl, he, ?_⟩
          intro ps hps p hp
          simp only [analysisDataValid, he, hps] at h
          simp only [Bool.and_eq_true] at h
          have hprod : productListValid ps = true := by tauto
          simpa using productValid_obj (productListValid_mem hprod p hp)
      | null => rw [analysisDataValid, he] at h; simp at h
      | undef => rw [analysisDataValid, he] at h; simp at h
      | bool b => rw [analysisDataValid, he] at h; simp at h
      | num n => rw [analysisDataValid, he] at h; simp at h
      | str s => rw [analysisDataValid, he] at h; simp at h
      | arr xs => rw [analysisDataValid, he] at h; simp at h
  | null => exact absurd h (by decide)
  | undef => exact absurd h (by decide)
  | bool b =>
      have e : analysisDataValid (.bool b) = false := rfl
      rw [e] at h; cases h
  | num n =>
      have e : analysisDataValid (.num n) = false := rfl
      rw [e] at h; cases h
  | str s =>
      have e : analysisDataValid (.str s) = false := rfl
      rw [e] at h; cases h
  | arr xs =>
      have e : analysisDataValid (.arr xs) = false := rfl
      rw [e] at h; cases h

/-! ## C6 — validator enum leniency (corrected) -/

/-- C6 counterexample: a structurally well-formed AnalysisResult whose
only deviation is an unrecognized `type_research_detail` string is
rejected by `validate.analysisData`, contrary to the claim that
validation never rejects on enum membership. -/
theorem C6_counterexample : analysisDataValid (enumProbe "bogus") = false := by decide

/-- C6 (amended): `validate.analysisData` parses details with the Zod
enums, so any `type_research_detail` outside `researchDetailTypes` is
rejected; shape-only leniency holds only for `validate.basicStructure`,
which accepts the same value. -/
theorem C6_enum_strictness (s : String) (h : typeResearchDetailList.contains s = false) :
    analysisDataValid (enumProbe s) = false ∧ basicStructureValid (enumProbe s) = true := by
  have h2 : ¬ s ∈ typeResearchDetailList := by
    intro hm
    have h3 : typeResearchDetailList.elem s = true := List.elem_eq_true_of_mem hm
    rw [List.contains, h3] at h
    cases h
  constructor
  · simp [enumProbe, analysisDataValid, detailValid, checkEnum, okOpt, fieldVal, lookupField,
      checkPositiveInt, checkUuidStr, checkDatetimeStr, checkUrlStr, Json.isUndef, Json.isStr,
      Json.isNum, h2]
  · rfl

/-- Witness for C6_enum_strictness at `s = "bogus"`. -/
theorem C6_enum_strictness_witness :
    analysisDataValid (enumProbe "bogus2") = false ∧
    basicStructureValid (enumProbe "bogus2") = true :=
  C6_enum_strictness "bogus2" (by decide)

/-! ## C2 — repair output conforms to the schema (corrected) -/

/-- C2 counterexample: repair passes an unknown enum string straight
through into the repaired detail, and the validator then rejects the
repaired value — `validate.analysisData(repairAnalysisData(v))` is not
always valid. -/
theorem C2_counterexample :
    analysisDataValid (repairAnalysisData "2026-10-11"
      (.obj [("entity", .obj [("details",
        .arr [.obj [("type_research_detail", .str "bogus")]])])])) = false := by decide

/-- C2 (amended): for every input that fails the object guard or
matches neither recognized shape, repair returns the default structure,
which the validator accepts; acceptance does not hold in general
because detail-level fields pass through repair unvalidated. -/
theorem C2_default_valid (today : String) (v : Json)
    (h : (v.truthy && v.typeofObject) = false ∨
         (matchesCase1 v = false ∧ matchesCase2 v = false)) :
    analysisDataValid (repairAnalysisData today v) = true := by
  rcases h with h | ⟨h1, h2⟩
  · rw [repairAnalysisData, h]
    simp only [Bool.false_eq_true, if_false]
    decide
  · cases hg : (v.truthy && v.typeofObject) with
    | false =>
        rw [repairAnalysisData, hg]
        simp only [Bool.false_eq_true, if_false]
        decide
    | true =>
        rw [repairAnalysisData, hg]
        simp only [if_true]
        rw [repairTry, h1, h2]
        simp only [Bool.false_eq_true, if_false]
        decide

/-- Witness for C2_default_valid at `v = 42`. -/
theorem C2_default_valid_witness :
    ((Json.num 42).truthy && (Json.num 42).typeofObject) = false ∧
    analysisDataValid (repairAnalysisData "2026-10-11" (.num 42)) = true :=
  ⟨by decide, C2_default_valid "2026-10-11" (.num 42) (Or.inl (by decide))⟩

/-! ## C5 — field-extraction fallback rule (corrected) -/

/-- C5 counterexample: a `type_research_detail` that is present but a
number (wrong type) is NOT replaced by the default — `getDetailProperty`
returns it as-is. -/
theorem C5_counterexample :
    getDetailProperty (.obj [("type_research_detail", .num 42)])
      "type_research_detail" "typeResearchDetail" (.str "market_share_estimate")
      = .ok (.num 42) ∧ (Json.num 42) ≠ (.str "market_share_estimate") :=
  ⟨rfl, by decide⟩

/-- C5 (amended): `getDetailProperty` reads the snake_case key first,
then the camelCase key, then the default, where a key counts as present
exactly when it maps to a non-`undefined` value — the value is passed
through regardless of its type; and on a non-object detail element the
extraction throws (`in` on a primitive), which repair's outer catch
resolves to the overall default structure. -/
theorem C5_extraction_order :
    (∀ (fs : List (String × Json)) (k1 k2 : String) (dflt v : Json),
      lookupField fs k1 = some v → v.isUndef = false →
      getDetailProperty (.obj fs) k1 k2 dflt = .ok v) ∧
    (∀ (fs : List (String × Json)) (k1 k2 : String) (dflt v : Json),
      (lookupField fs k1 = none ∨ lookupField fs k1 = some .undef) →
      lookupField fs k2 = some v → v.isUndef = false →
      getDetailProperty (.obj fs) k1 k2 dflt = .ok v) ∧
    (∀ (fs : List (String × Json)) (k1 k2 : String) (dflt : Json),
      (lookupField fs k1 = none ∨ lookupField fs k1 = some .undef) →
      (lookupField fs k2 = none ∨ lookupField fs k2 = some .undef) →
      getDetailProperty (.obj fs) k1 k2 dflt = .ok dflt) ∧
    (∀ (k1 k2 : String) (dflt : Json) (n : Int),
      getDetailProperty (.num n) k1 k2 dflt = .error ()) := by
  refine ⟨?_, ?_, ?_, ?_⟩
  · intro fs k1 k2 dflt v h1 h2
    simp [getDetailProperty, gdpVal, h1, h2]
  · intro fs k1 k2 dflt v h1 h2 h3
    rcases h1 with h1 | h1 <;>
      simp [getDetailProperty, gdpVal, h1, h2, h3, show Json.undef.isUndef = true from rfl]
  · intro fs k1 k2 dflt h1 h2
    rcases h1 with h1 | h1 <;> rcases h2 with h2 | h2 <;>
      simp [getDetailProperty, gdpVal, h1, h2, Json.isUndef]
  · intro k1 k2 dflt n
    rfl

/-- Witness for C5_extraction_order (snake_case precedence conjunct) at
concrete keys with both keys present. -/
theorem C5_extraction_order_witness :
    getDetailProperty (.obj [("data_confidence", .str "low"), ("dataConfidence", .str "high")])
      "data_confidence" "dataConfidence" (.str "medium") = .ok (.str "low") :=
  C5_extraction_order.1 [("data_confidence", .str "low"), ("dataConfidence", .str "high")]
    "data_confidence" "dataConfidence" (.str "medium") (.str "low") rfl rfl

/-! ## C3 — transport errors are never swallowed (corrected) -/

/-- C3 counterexample: a transport failure during the multi strategy's
basic-info call does NOT fail the request — `getBasicCompanyInfo`
catches it and substitutes defaults, and the pipeline returns a result. -/
theorem C3_counterexample :
    exceptOk (processCompanyAnalysis "Acme" "multi" "transformedOpenAI" false "2026-10-11"
      (.error ())) = true := by decide

/-- C3 (amended): under the `single` strategy a transport error
propagates to the caller unchanged; under the `multi` strategy a
transport failure of the basic-info call is swallowed and the request
still resolves (with an empty defaulted skeleton). -/
theorem C3_propagation (companyName sourceType : String) (skipValidation : Bool)
    (today : String) :
    processCompanyAnalysis companyName "single" sourceType skipValidation today (.error ())
      = .error () ∧
    exceptOk (processCompanyAnalysis companyName "multi" sourceType skipValidation today
      (.error ())) = true := by
  exact ⟨rfl, rfl⟩

/-! ## C9 — multi-strategy competitor replication (confirmed) -/

/-- C9: every product assembled by the multi-step strategy carries the
same competitors array — one three-field skeleton (`id = null`,
`name_brand`, empty `details`) per basic-info competitor name, in
order — and exactly one synthetic `market_share_estimate` detail on the
product itself. -/
theorem C9_competitor_replication (companyName today : String)
    (outcome : Except Unit (Json × Json)) (p : Json)
    (hp : p ∈ productsOf (processMultiStepAnalysis companyName today outcome)) :
    jGet p "competitors"
      = .arr ((getBasicCompanyInfo companyName outcome).main_competitors.map
          (fun c => Json.obj [("id", .null), ("name_brand", c), ("details", .arr [])])) ∧
    jGet p "details" = .arr [.obj [
      ("type_research_detail", .str "market_share_estimate"),
      ("data_confidence", .str "high"),
      ("source_type", .str "analyst_estimate"),
      ("as_of_date", .str today),
      ("text_value", .str ("Product offered by " ++ companyName))]] := by
  have hps : productsOf (processMultiStepAnalysis companyName today outcome)
      = (getBasicCompanyInfo companyName outcome).main_products.map
          (fun pn => productSkeleton companyName today pn
            (getBasicCompanyInfo companyName outcome).main_competitors) := rfl
  rw [hps] at hp
  obtain ⟨pn, hpn, hpeq⟩ := List.mem_map.mp hp
  subst hpeq
  exact ⟨rfl, rfl⟩

/-- Witness for C9_competitor_replication at a concrete basic-info
outcome with one product and two competitors. -/
theorem C9_competitor_replication_witness :
    jGet (productSkeleton "Acme" "2026-10-11" (.str "Widget") [.str "Bolt", .str "Nut"])
      "competitors"
      = .arr [.obj [("id", .null), ("name_brand", .str "Bolt"), ("details", .arr [])],
              .obj [("id", .null), ("name_brand", .str "Nut"), ("details", .arr [])]] :=
  (C9_competitor_replication "Acme" "2026-10-11"
    (.ok (.obj [("company_name", .str "Acme"),
                ("main_products", .arr [.str "Widget"]),
                ("main_competitors", .arr [.str "Bolt", .str "Nut"])],
          .obj [("totalTokens", .num 3), ("costUSD", .num 0)]))
    (productSkeleton "Acme" "2026-10-11" (.str "Widget") [.str "Bolt", .str "Nut"])
    (by decide)).1

/-! ## C1 — totality of repair (corrected) -/

theorem repair_prop (P : Json → Prop) (hdef : P defaultData)
    (hc1 : ∀ today rd r, repairCase1 today rd (jGet rd "entity") = .ok r → P r)
    (hc2 : ∀ rd xs, P (repairCase2 rd xs)) :
    ∀ today v, P (repairAnalysisData today v) := by
  intro today v
  rw [repairAnalysisData]
  by_cases hg : (v.truthy && v.typeofObject) = true
  · rw [if_pos hg, repairTry]
    by_cases h1 : matchesCase1 v = true
    · rw [if_pos h1]
      cases hr : repairCase1 today v (jGet v "entity") with
      | ok r => exact hc1 today v r hr
      | error e => exact hdef
    · rw [if_neg h1]
      by_cases h2 : matchesCase2 v = true
      · rw [if_pos h2]
        exact hc2 v _
      · rw [if_neg h2]
        exact hdef
  · rw [if_neg hg]
    exact hdef

theorem repairCase1_shape {today : String} {rd ed : Json} {r : Json}
    (h : repairCase1 today rd ed = .ok r) :
    ∃ dts prods,
      (match jGet ed "details" with
       | .arr xs => mapME (repairDetailEntity today) xs
       | _ => pure []) = .ok dts ∧
      (match jGet ed "products" with
       | .arr xs => mapME (repairProduct1 today) xs
       | _ => pure []) = .ok prods ∧
      r = .obj [
        ("entity", .obj [("id", .null),
          ("name_brand", if (jGet ed "name_brand").isStr then jGet ed "name_brand"
                         else if (jGet ed "nameBrand").isStr then jGet ed "nameBrand"
                         else .str "Unknown Company"),
          ("details", .arr dts),
          ("products", .arr prods)]),
        ("_meta", if (jGet rd "_meta").truthy && (jGet rd "_meta").typeofObject
                  then jGet rd "_meta" else defaultMeta)] := by
  rw [repairCase1] at h
  obtain ⟨dts, hdts, h2⟩ := exbind_ok h
  obtain ⟨prods, hprods, h3⟩ := exbind_ok h2
  cases h3
  exact ⟨dts, prods, hdts, hprods, rfl⟩

/-- C1 counterexample: an input carrying an empty-string `name_brand`
is passed through — the repaired `entity.name_brand` is `""`, not a
non-empty string. -/
theorem C1_counterexample :
    jGet (jGet (repairAnalysisData "2026-10-11"
      (.obj [("entity", .obj [("name_brand", .str "")])])) "entity") "name_brand"
      = .str "" := by decide

/-- C1 (amended): repair is total — for every input it returns an
AnalysisResult whose `entity.name_brand` is a string (possibly empty,
when the input supplies an empty string) and whose `entity.products` is
an array; it never throws (exceptions inside the try block resolve to
the default structure by construction). -/
theorem C1_totality (today : String) (v : Json) :
    (jGet (jGet (repairAnalysisData today v) "entity") "name_brand").isStr = true ∧
    (jGet (jGet (repairAnalysisData today v) "entity") "products").isArr = true := by
  refine repair_prop (fun j => (jGet (jGet j "entity") "name_brand").isStr = true ∧
    (jGet (jGet j "entity") "products").isArr = true) ⟨rfl, rfl⟩ ?_ ?_ today v
  · intro today1 rd r hr
    obtain ⟨dts, prods, _, _, hre⟩ := repairCase1_shape hr
    subst hre
    constructor
    · show (if (jGet (jGet rd "entity") "name_brand").isStr then _
            else if (jGet (jGet rd "entity") "nameBrand").isStr then _
            else Json.str "Unknown Company").isStr = true
      split
      next h => exact h
      next => split
              next h => exact h
              next => rfl
    · rfl
  · intro rd xs
    constructor
    · show (if ((let cObj := jGet rd "company"
                 jsOr
                  (if cObj.typeofObject && cObj.truthy then
                     jsOr (jGet cObj "name")
                       (jsOr (jGet cObj "company_name") (jGet cObj "trade_name"))
                   else .null)
                  (jsOr (jGet rd "company_name") (jsOr (jGet rd "name")
                    (jsOr (jGet rd "trade_name") (.str "Unknown Company"))))) : Json).isStr
            then _ else Json.str "Unknown Company").isStr = true
      split
      next h => exact h
      next => rfl
    · rfl

/-! ## C8 — null id invariant (corrected) -/

theorem repairCompetitor1_id {today : String} {c r : Json}
    (h : repairCompetitor1 today c = .ok r) : jGet r "id" = .null := by
  rw [repairCompetitor1] at h
  by_cases hg : (c.truthy && c.typeofObject) = true
  · rw [if_pos hg] at h
    obtain ⟨dts, _, h2⟩ := exbind_ok h
    cases h2
    rfl
  · rw [if_neg hg] at h
    cases h
    rfl

theorem matchMap_ok {f : Json → Except Unit Json} {v : Json} {ys : List Json}
    (h : (match v with | .arr xs => mapME f xs | _ => pure []) = .ok ys) :
    ∀ y ∈ ys, ∃ x, f x = .ok y := by
  cases v with
  | arr xs =>
      intro y hy
      obtain ⟨x, _, hx⟩ := mapME_ok_mem h y hy
      exact ⟨x, hx⟩
  | null => cases h; intro y hy; simp at hy
  | undef => cases h; intro y hy; simp at hy
  | bool b => cases h; intro y hy; simp at hy
  | num n => cases h; intro y hy; simp at hy
  | str s => cases h; intro y hy; simp at hy
  | obj fs => cases h; intro y hy; simp at hy

theorem repairProduct1_id {today : String} {p r : Json}
    (h : repairProduct1 today p = .ok r) : prodIdsNull r = true := by
  rw [repairProduct1] at h
  by_cases hg : (p.truthy && p.typeofObject) = true
  · rw [if_pos hg] at h
    obtain ⟨dts, _, h2⟩ := exbind_ok h
    obtain ⟨comps, hcomps, h3⟩ := exbind_ok h2
    cases h3
    show (true && comps.all (fun c => jGet c "id" == Json.null)) = true
    rw [Bool.true_and, List.all_eq_true]
    intro c hc
    obtain ⟨c0, hc0⟩ := matchMap_ok hcomps c hc
    rw [repairCompetitor1_id hc0]
    rfl
  · rw [if_neg hg] at h
    cases h
    rfl

theorem repairCompetitor2_id (idx : Nat) (c : Json) :
    jGet (repairCompetitor2 idx c) "id" = .null := by
  rw [repairCompetitor2]
  split <;> rfl

theorem prodIdsNull_build (nb d : Json) (cs : List Json) :
    prodIdsNull (.obj [("id", .null), ("name_brand", nb), ("details", d),
      ("competitors", .arr cs)]) = cs.all (fun c => jGet c "id" == Json.null) := rfl

theorem repairProduct2_id (idx : Nat) (p : Json) :
    prodIdsNull (repairProduct2 idx p) = true := by
  rw [repairProduct2]
  split
  · rw [prodIdsNull_build, List.all_eq_true]
    intro c hcm
    rw [case2Competitors] at hcm
    cases hc : jGet p "competitors" with
    | arr xs =>
        rw [hc] at hcm
        obtain ⟨q, _, hq⟩ := List.mem_map.mp hcm
        rw [← hq, repairCompetitor2_id]
        rfl
    | null => rw [hc] at hcm; simp at hcm
    | undef => rw [hc] at hcm; simp at hcm
    | bool b => rw [hc] at hcm; simp at hcm
    | num n => rw [hc] at hcm; simp at hcm
    | str s => rw [hc] at hcm; simp at hcm
    | obj fs => rw [hc] at hcm; simp at hcm
  · rfl

/-- C8 counterexample: at the `rawOpenAI` processing level the pipeline
returns the generated result unmodified, so an LLM-supplied non-null
`entity.id` survives to the caller. -/
theorem C8_counterexample :
    jGet (jGet (match processCompanyAnalysis "Acme" "single" "rawOpenAI" false "2026-10-11"
      (.ok (.obj [("entity", .obj [("id", .str "ext-42"), ("name_brand", .str "Acme"),
                    ("details", .arr []), ("products", .arr [])])],
            .obj [("totalTokens", .num 3), ("costUSD", .num 0)])) with
      | .ok r => r
      | .error _ => Json.null) "entity") "id" = .str "ext-42" := by decide

/-- C8 (amended): every AnalysisResult produced by the repair engine,
and every skeleton assembled by the multi-step strategy, has `id = null`
on the root entity, on every product and on every competitor; the `raw`
and `validated` processing levels, however, pass LLM-supplied ids
through unchanged. -/
theorem C8_null_ids (today : String) (v : Json) (companyName : String)
    (outcome : Except Unit (Json × Json)) :
    allIdsNull (repairAnalysisData today v) = true ∧
    allIdsNull (processMultiStepAnalysis companyName today outcome) = true := by
  constructor
  · refine repair_prop (fun j => allIdsNull j = true) (by decide) ?_ ?_ today v
    · intro today1 rd r hr
      obtain ⟨dts, prods, _, hprods, hre⟩ := repairCase1_shape hr
      subst hre
      show (true && prods.all prodIdsNull) = true
      rw [Bool.true_and, List.all_eq_true]
      intro p hp
      obtain ⟨p0, hp0⟩ := matchMap_ok hprods p hp
      exact repairProduct1_id hp0
    · intro rd xs
      show (true && ((xs.enum.map (fun q => repairProduct2 q.1 q.2)).all prodIdsNull)) = true
      rw [Bool.true_and, List.all_eq_true]
      intro p hp
      obtain ⟨q, _, hq⟩ := List.mem_map.mp hp
      rw [← hq]
      exact repairProduct2_id q.1 q.2
  · show (true && (((getBasicCompanyInfo companyName outcome).main_products.map
      (fun pn => productSkeleton companyName today pn
        (getBasicCompanyInfo companyName outcome).main_competitors)).all prodIdsNull)) = true
    rw [Bool.true_and, List.all_eq_true]
    intro p hp
    obtain ⟨pn, _, hpn⟩ := List.mem_map.mp hp
    rw [← hpn]
    show (true && (((getBasicCompanyInfo companyName outcome).main_competitors.map
      (fun c => Json.obj [("id", .null), ("name_brand", c), ("details", .arr [])])).all
        (fun c => jGet c "id" == Json.null))) = true
    rw [Bool.true_and, List.all_eq_true]
    intro c hc
    obtain ⟨c0, _, hc0⟩ := List.mem_map.mp hc
    rw [← hc0]
    rfl

/-! ## C7 — repairedOpenAI branch semantics (corrected) -/

theorem jGet_spreadSet1_self (base : Json) (k : String) (v : Json) :
    jGet (spreadSet1 base k v) k = v := by
  rw [spreadSet1, jGet, lookupField_upsert_self]
  rfl

theorem jGet_spreadSet1_ne (fs : List (String × Json)) (k k1 : String) (v : Json)
    (h : k1 ≠ k) : jGet (spreadSet1 (.obj fs) k v) k1 = jGet (.obj fs) k1 := by
  rw [spreadSet1, jGet, jGet]
  show ((lookupField (upsertField fs k v) k1).getD .undef) = (lookupField fs k1).getD .undef
  rw [lookupField_upsert_ne fs k k1 v h]

theorem repair_isObj (today : String) (v : Json) :
    ∃ fs, repairAnalysisData today v = .obj fs := by
  refine repair_prop (fun j => ∃ fs, j = .obj fs) ⟨_, rfl⟩ ?_ ?_ today v
  · intro today1 rd r hr
    obtain ⟨dts, prods, _, _, hre⟩ := repairCase1_shape hr
    exact ⟨_, hre⟩
  · intro rd xs
    exact ⟨_, rfl⟩

/-- C7 counterexample: for an invalid generated result with its own
`_meta` but no Case-A entity, the `repairedOpenAI` branch does not
return repair's output with `_meta.validation` set — it replaces the
repaired `_meta` by a spread of the ORIGINAL `_meta` (here carrying
cost 5/1) plus the tag, discarding repair's default cost block. -/
theorem C7_counterexample :
    analysisDataValid (.obj [("company_name", .str "Acme"), ("products", .arr []),
      ("_meta", .obj [("cost", .obj [("totalTokens", .num 5), ("costUSD", .num 1)])])]) = false ∧
    processSourceType "2026-10-11" "repairedOpenAI" false
      (.obj [("company_name", .str "Acme"), ("products", .arr []),
        ("_meta", .obj [("cost", .obj [("totalTokens", .num 5), ("costUSD", .num 1)])])])
      ≠ setMetaValidation (repairAnalysisData "2026-10-11"
          (.obj [("company_name", .str "Acme"), ("products", .arr []),
            ("_meta", .obj [("cost", .obj [("totalTokens", .num 5), ("costUSD", .num 1)])])]))
          "repaired" := by
  constructor
  · decide
  · decide

/-- C7 (amended): at level `repairedOpenAI`, when validation accepts
the generated result the branch returns it with every key other than
`_meta` unchanged and `_meta.validation = "valid_at_source"` (other
`_meta` fields preserved); when validation rejects it, the branch
returns the repair output with every key other than `_meta` unchanged
and `_meta` rebuilt from the ORIGINAL result's `_meta` spread plus
`validation = "repaired"` — so repair's own `_meta` (e.g. its default
cost block) is discarded, not tagged. -/
theorem C7_repaired_branch (today : String) (d : Json) :
    (analysisDataValid d = true →
      (∀ k, k ≠ "_meta" →
        jGet (processSourceType today "repairedOpenAI" false d) k = jGet d k) ∧
      jGet (jGet (processSourceType today "repairedOpenAI" false d) "_meta") "validation"
        = .str "valid_at_source" ∧
      (∀ mfs, jGet d "_meta" = .obj mfs → ∀ k, k ≠ "validation" →
        jGet (jGet (processSourceType today "repairedOpenAI" false d) "_meta") k
          = fieldVal mfs k)) ∧
    (analysisDataValid d = false →
      (∀ k, k ≠ "_meta" →
        jGet (processSourceType today "repairedOpenAI" false d) k
          = jGet (repairAnalysisData today d) k) ∧
      jGet (jGet (processSourceType today "repairedOpenAI" false d) "_meta") "validation"
        = .str "repaired" ∧
      (∀ mfs, jGet d "_meta" = .obj mfs → ∀ k, k ≠ "validation" →
        jGet (jGet (processSourceType today "repairedOpenAI" false d) "_meta") k
          = fieldVal mfs k)) := by
  have hb : processSourceType today "repairedOpenAI" false d = repairedBranch today d := rfl
  rw [hb]
  constructor
  · intro hv
    have hres : repairedBranch today d
        = spreadSet1 d "_meta" (spreadSet1 (jGet d "_meta") "validation"
            (.str "valid_at_source")) := by
      rw [repairedBranch, hv]
      simp only [if_true]
    rw [hres]
    obtain ⟨fs, _, hobj, _⟩ := validStructure hv
    refine ⟨?_, ?_, ?_⟩
    · intro k hk
      rw [hobj]
      exact jGet_spreadSet1_ne fs "_meta" k _ hk
    · rw [jGet_spreadSet1_self, jGet_spreadSet1_self]
    · intro mfs hmfs k hk
      rw [jGet_spreadSet1_self, hmfs]
      rw [jGet_spreadSet1_ne mfs "validation" k _ hk]
      rfl
  · intro hv
    have hres : repairedBranch today d
        = spreadSet1 (repairAnalysisData today d) "_meta"
            (spreadSet1 (jGet d "_meta") "validation" (.str "repaired")) := by
      rw [repairedBranch, hv]
      simp only [Bool.false_eq_true, if_false]
    rw [hres]
    obtain ⟨fs, hobj⟩ := repair_isObj today d
    refine ⟨?_, ?_, ?_⟩
    · intro k hk
      rw [hobj]
      exact jGet_spreadSet1_ne fs "_meta" k _ hk
    · rw [jGet_spreadSet1_self, jGet_spreadSet1_self]
    · intro mfs hmfs k hk
      rw [jGet_spreadSet1_self, hmfs]
      rw [jGet_spreadSet1_ne mfs "validation" k _ hk]
      rfl

/-- Witness for C7_repaired_branch at a concrete valid result with a
cost-bearing `_meta`: the tag is attached and the cost block survives. -/
theorem C7_repaired_branch_witness :
    jGet (jGet (processSourceType "2026-10-11" "repairedOpenAI" false
      (.obj [("entity", .obj [("id", .null), ("name_brand", .str "Acme"),
                ("details", .arr []), ("products", .arr [])]),
             ("_meta", .obj [("cost", .obj [("totalTokens", .num 9), ("costUSD", .num 2)])])]))
      "_meta") "validation" = .str "valid_at_source" :=
  ((C7_repaired_branch "2026-10-11"
    (.obj [("entity", .obj [("id", .null), ("name_brand", .str "Acme"),
              ("details", .arr []), ("products", .arr [])]),
           ("_meta", .obj [("cost", .obj [("totalTokens", .num 9), ("costUSD", .num 2)])])])).1
    (by decide)).2.1

/-! ## C4 — idempotence of repair on canonical input (corrected) -/

theorem jsOr_undef (b : Json) : jsOr .undef b = b := rfl

/-- A truthiness chain `a || (b || dflt)` is a fixed point of
`x ↦ if truthy x then x else dflt`. -/
theorem orFix (a b dflt : Json) :
    (if (jsOr a (jsOr b dflt)).truthy then jsOr a (jsOr b dflt) else dflt)
      = jsOr a (jsOr b dflt) := by
  rw [jsOr, jsOr]
  by_cases ha : a.truthy = true
  · simp [ha]
  · simp only [ha, Bool.false_eq_true, if_false]
    by_cases hb : b.truthy = true
    · simp [hb]
    · simp only [hb, Bool.false_eq_true, if_false]
      split <;> rfl

/-- A typed two-key chain `if p x then x else if p y then y else undef`
is a fixed point of `v ↦ if p v then v else undef`. -/
theorem valFix (p : Json → Bool) (hu : p .undef = false) (x y : Json) :
    (if p (if p x then x else if p y then y else .undef)
     then (if p x then x else if p y then y else .undef) else .undef)
      = (if p x then x else if p y then y else .undef) := by
  by_cases hx : p x = true
  · simp [hx]
  · simp only [hx, Bool.false_eq_true, if_false]
    by_cases hy : p y = true
    · simp [hy]
    · simp [hy, hu]

theorem ifUndef_neg (A X : Json) (h : A.isUndef = false) :
    (if A.isUndef then X else A) = A := by
  simp [h]

theorem strChainIsStr (a b : Json) (s : String) :
    (if a.isStr then a else if b.isStr then b else .str s).isStr = true := by
  by_cases ha : a.isStr = true
  · simp [ha]
  · simp only [ha, Bool.false_eq_true, if_false]
    by_cases hb : b.isStr = true
    · simp [hb]
    · simp only [hb, Bool.false_eq_true, if_false]
      rfl

theorem strChainFix (N b : Json) (s : String) (h : N.isStr = true) :
    (if N.isStr then N else if b.isStr then b else .str s) = N := by
  simp [h]

theorem gdp_not_undef (fs : List (String × Json)) (k1 k2 : String) (dflt : Json)
    (hd : dflt.isUndef = false) : (gdpVal fs k1 k2 dflt).isUndef = false := by
  rw [gdpVal]
  cases h1 : lookupField fs k1 with
  | some v =>
      by_cases hv : v.isUndef = true
      · simp only [hv, if_true]
        cases h2 : lookupField fs k2 with
        | some w =>
            by_cases hw : w.isUndef = true
            · simp [hw, hd]
            · simp only [Bool.not_eq_true] at hw
              simp [hw]
        | none => exact hd
      · simp only [Bool.not_eq_true] at hv
        simp [hv]
  | none =>
      cases h2 : lookupField fs k2 with
      | some w =>
          by_cases hw : w.isUndef = true
          · simp [hw, hd]
          · simp only [Bool.not_eq_true] at hw
            simp [hw]
      | none => exact hd

theorem repair_default_fix (today : String) :
    repairAnalysisData today defaultData = defaultData := rfl

theorem buildE_idem (today : String) (d : Json) :
    buildDetailEntity today (buildDetailEntity today d) = buildDetailEntity today d := by
  show Json.obj [
    ("type_research_detail",
      if (jsOr (jGet d "type_research_detail") (jsOr (jGet d "typeResearchDetail")
            (.str "market_share_estimate"))).truthy
      then jsOr (jGet d "type_research_detail") (jsOr (jGet d "typeResearchDetail")
            (.str "market_share_estimate"))
      else .str "market_share_estimate"),
    ("data_confidence",
      if (jsOr (jGet d "data_confidence") (jsOr (jGet d "dataConfidence")
            (.str "medium"))).truthy
      then jsOr (jGet d "data_confidence") (jsOr (jGet d "dataConfidence") (.str "medium"))
      else .str "medium"),
    ("source_type",
      if (jsOr (jGet d "source_type") (jsOr (jGet d "sourceType")
            (.str "analyst_estimate"))).truthy
      then jsOr (jGet d "source_type") (jsOr (jGet d "sourceType") (.str "analyst_estimate"))
      else .str "analyst_estimate"),
    ("as_of_date",
      if (jsOr (jGet d "as_of_date") (jsOr (jGet d "asOfDate") (.str today))).truthy
      then jsOr (jGet d "as_of_date") (jsOr (jGet d "asOfDate") (.str today))
      else .str today),
    ("discrete_value",
      if (if (jGet d "discrete_value").isNum then jGet d "discrete_value"
          else if (jGet d "discreteValue").isNum then jGet d "discreteValue"
          else Json.undef).isNum
      then (if (jGet d "discrete_value").isNum then jGet d "discrete_value"
            else if (jGet d "discreteValue").isNum then jGet d "discreteValue"
            else Json.undef)
      else Json.undef),
    ("text_value",
      if (if (jGet d "text_value").isStr then jGet d "text_value"
          else if (jGet d "textValue").isStr then jGet d "textValue"
          else Json.undef).isStr
      then (if (jGet d "text_value").isStr then jGet d "text_value"
            else if (jGet d "textValue").isStr then jGet d "textValue"
            else Json.undef)
      else Json.undef)] = buildDetailEntity today d
  rw [orFix, orFix, orFix, orFix,
    valFix Json.isNum rfl (jGet d "discrete_value") (jGet d "discreteValue"),
    valFix Json.isStr rfl (jGet d "text_value") (jGet d "textValue")]
  rfl

theorem rde_fix (today : String) {d r : Json} (h : repairDetailEntity today d = .ok r) :
    repairDetailEntity today r = .ok r := by
  cases d with
  | null => cases h
  | undef => cases h
  | bool b =>
      have h2 : Except.ok (buildDetailEntity today (.bool b)) = Except.ok r := h
      injection h2 with h3
      subst h3
      show Except.ok (buildDetailEntity today (buildDetailEntity today (.bool b))) = _
      rw [buildE_idem]
  | num n =>
      have h2 : Except.ok (buildDetailEntity today (.num n)) = Except.ok r := h
      injection h2 with h3
      subst h3
      show Except.ok (buildDetailEntity today (buildDetailEntity today (.num n))) = _
      rw [buildE_idem]
  | str s =>
      have h2 : Except.ok (buildDetailEntity today (.str s)) = Except.ok r := h
      injection h2 with h3
      subst h3
      show Except.ok (buildDetailEntity today (buildDetailEntity today (.str s))) = _
      rw [buildE_idem]
  | arr xs =>
      have h2 : Except.ok (buildDetailEntity today (.arr xs)) = Except.ok r := h
      injection h2 with h3
      subst h3
      show Except.ok (buildDetailEntity today (buildDetailEntity today (.arr xs))) = _
      rw [buildE_idem]
  | obj fs =>
      have h2 : Except.ok (buildDetailEntity today (.obj fs)) = Except.ok r := h
      injection h2 with h3
      subst h3
      show Except.ok (buildDetailEntity today (buildDetailEntity today (.obj fs))) = _
      rw [buildE_idem]

theorem buildP_idem (today : String) (fs : List (String × Json)) :
    repairDetailProduct today (buildDetailProduct today fs)
      = .ok (buildDetailProduct today fs) := by
  show Except.ok (Json.obj [
    ("type_research_detail",
      if (gdpVal fs "type_research_detail" "typeResearchDetail"
            (.str "market_share_estimate")).isUndef
      then .str "market_share_estimate"
      else gdpVal fs "type_research_detail" "typeResearchDetail" (.str "market_share_estimate")),
    ("data_confidence",
      if (gdpVal fs "data_confidence" "dataConfidence" (.str "medium")).isUndef
      then .str "medium"
      else gdpVal fs "data_confidence" "dataConfidence" (.str "medium")),
    ("source_type",
      if (gdpVal fs "source_type" "sourceType" (.str "analyst_estimate")).isUndef
      then .str "analyst_estimate"
      else gdpVal fs "source_type" "sourceType" (.str "analyst_estimate")),
    ("as_of_date",
      if (gdpVal fs "as_of_date" "asOfDate" (.str today)).isUndef
      then .str today
      else gdpVal fs "as_of_date" "asOfDate" (.str today)),
    ("discrete_value",
      if (if (fieldVal fs "discrete_value").isNum then fieldVal fs "discrete_value"
          else if (fieldVal fs "discreteValue").isNum then fieldVal fs "discreteValue"
          else Json.undef).isNum
      then (if (fieldVal fs "discrete_value").isNum then fieldVal fs "discrete_value"
            else if (fieldVal fs "discreteValue").isNum then fieldVal fs "discreteValue"
            else Json.undef)
      else Json.undef),
    ("text_value",
      if (if (fieldVal fs "text_value").isStr then fieldVal fs "text_value"
          else if (fieldVal fs "textValue").isStr then fieldVal fs "textValue"
          else Json.undef).isStr
      then (if (fieldVal fs "text_value").isStr then fieldVal fs "text_value"
            else if (fieldVal fs "textValue").isStr then fieldVal fs "textValue"
            else Json.undef)
      else Json.undef)]) = Except.ok (buildDetailProduct today fs)
  rw [ifUndef_neg _ _ (gdp_not_undef fs "type_research_detail" "typeResearchDetail"
      (.str "market_share_estimate") rfl),
    ifUndef_neg _ _ (gdp_not_undef fs "data_confidence" "dataConfidence" (.str "medium") rfl),
    ifUndef_neg _ _ (gdp_not_undef fs "source_type" "sourceType"
      (.str "analyst_estimate") rfl),
    ifUndef_neg _ _ (gdp_not_undef fs "as_of_date" "asOfDate" (.str today) rfl),
    valFix Json.isNum rfl (fieldVal fs "discrete_value") (fieldVal fs "discreteValue"),
    valFix Json.isStr rfl (fieldVal fs "text_value") (fieldVal fs "textValue")]
  rfl

theorem rdp_fix (today : String) {d r : Json} (h : repairDetailProduct today d = .ok r) :
    repairDetailProduct today r = .ok r := by
  cases d with
  | null => cases h
  | undef => cases h
  | bool b => cases h
  | num n => cases h
  | str s => cases h
  | arr xs =>
      have h2 : Except.ok (constDetailProduct today) = Except.ok r := h
      injection h2 with h3
      subst h3
      rfl
  | obj fs =>
      have h2 : Except.ok (buildDetailProduct today fs) = Except.ok r := h
      injection h2 with h3
      subst h3
      exact buildP_idem today fs

theorem rc1_ok_build (today : String) (NB : Json) (dts : List Json) (hNB : NB.isStr = true)
    (hfix : ∀ y ∈ dts, repairDetailProduct today y = .ok y) :
    repairCompetitor1 today (.obj [("id", .null), ("name_brand", NB), ("details", .arr dts)])
      = .ok (.obj [("id", .null), ("name_brand", NB), ("details", .arr dts)]) := by
  have e1 : mapME (repairDetailProduct today) dts = .ok dts := mapME_fix hfix
  show (mapME (repairDetailProduct today) dts >>= fun dts2 =>
      Except.ok (Json.obj [("id", Json.null),
        ("name_brand",
          if NB.isStr then NB
          else if (Json.undef).isStr then Json.undef else Json.str "Unknown Competitor"),
        ("details", Json.arr dts2)]))
    = Except.ok (Json.obj [("id", Json.null), ("name_brand", NB), ("details", Json.arr dts)])
  rw [e1]
  show Except.ok (Json.obj [("id", Json.null),
    ("name_brand",
      if NB.isStr then NB
      else if (Json.undef).isStr then Json.undef else Json.str "Unknown Competitor"),
    ("details", Json.arr dts)]) = _
  rw [strChainFix NB Json.undef "Unknown Competitor" hNB]

theorem rc1_fix (today : String) {c r : Json} (h : repairCompetitor1 today c = .ok r) :
    repairCompetitor1 today r = .ok r := by
  rw [repairCompetitor1] at h
  by_cases hg : (c.truthy && c.typeofObject) = true
  · rw [if_pos hg] at h
    obtain ⟨dts, hdts, h2⟩ := exbind_ok h
    injection h2 with h3
    subst h3
    exact rc1_ok_build today _ dts
      (strChainIsStr (jGet c "name_brand") (jGet c "nameBrand") "Unknown Competitor")
      (fun y hy => by
        obtain ⟨x, hx⟩ := matchMap_ok hdts y hy
        exact rdp_fix today hx)
  · rw [if_neg hg] at h
    injection h with h3
    subst h3
    rfl

theorem rp1_ok_build (today : String) (NB : Json) (dts comps : List Json)
    (hNB : NB.isStr = true)
    (hdfix : ∀ y ∈ dts, repairDetailProduct today y = .ok y)
    (hcfix : ∀ y ∈ comps, repairCompetitor1 today y = .ok y) :
    repairProduct1 today (.obj [("id", .null), ("name_brand", NB), ("details", .arr dts),
      ("competitors", .arr comps)])
      = .ok (.obj [("id", .null), ("name_brand", NB), ("details", .arr dts),
        ("competitors", .arr comps)]) := by
  have e1 : mapME (repairDetailProduct today) dts = .ok dts := mapME_fix hdfix
  have e2 : mapME (repairCompetitor1 today) comps = .ok comps := mapME_fix hcfix
  show (mapME (repairDetailProduct today) dts >>= fun dts2 =>
        mapME (repairCompetitor1 today) comps >>= fun comps2 =>
        Except.ok (Json.obj [("id", Json.null),
          ("name_brand", if NB.isStr then NB
            else if (Json.undef).isStr then Json.undef else Json.str "Unknown Product"),
          ("details", Json.arr dts2), ("competitors", Json.arr comps2)]))
      = Except.ok (Json.obj [("id", Json.null), ("name_brand", NB), ("details", Json.arr dts),
          ("competitors", Json.arr comps)])
  rw [e1]
  show (mapME (repairCompetitor1 today) comps >>= fun comps2 =>
        Except.ok (Json.obj [("id", Json.null),
          ("name_brand", if NB.isStr then NB
            else if (Json.undef).isStr then Json.undef else Json.str "Unknown Product"),
          ("details", Json.arr dts), ("competitors", Json.arr comps2)])) = _
  rw [e2]
  show Except.ok (Json.obj [("id", Json.null),
      ("name_brand", if NB.isStr then NB
        else if (Json.undef).isStr then Json.undef else Json.str "Unknown Product"),
      ("details", Json.arr dts), ("competitors", Json.arr comps)]) = _
  rw [strChainFix NB Json.undef "Unknown Product" hNB]

theorem rp1_fix (today : String) {p r : Json} (hobj : (p.truthy && p.typeofObject) = true)
    (h : repairProduct1 today p = .ok r) : repairProduct1 today r = .ok r := by
  rw [repairProduct1, if_pos hobj] at h
  obtain ⟨dts, hdts, h2⟩ := exbind_ok h
  obtain ⟨comps, hcomps, h3⟩ := exbind_ok h2
  injection h3 with h4
  subst h4
  exact rp1_ok_build today _ dts comps
    (strChainIsStr (jGet p "name_brand") (jGet p "nameBrand") "Unknown Product")
    (fun y hy => by
      obtain ⟨x, hx⟩ := matchMap_ok hdts y hy
      exact rdp_fix today hx)
    (fun y hy => by
      obtain ⟨x, hx⟩ := matchMap_ok hcomps y hy
      exact rc1_fix today hx)

theorem case1_result_fix (today : String) (NB M : Json) (dts prods : List Json)
    (hNB : NB.isStr = true)
    (hM : (M.truthy && M.typeofObject) = true)
    (hdfix : ∀ y ∈ dts, repairDetailEntity today y = .ok y)
    (hpfix : ∀ y ∈ prods, repairProduct1 today y = .ok y) :
    repairAnalysisData today (.obj [("entity", .obj [("id", .null), ("name_brand", NB),
      ("details", .arr dts), ("products", .arr prods)]), ("_meta", M)])
      = .obj [("entity", .obj [("id", .null), ("name_brand", NB),
        ("details", .arr dts), ("products", .arr prods)]), ("_meta", M)] := by
  have e1 : mapME (repairDetailEntity today) dts = .ok dts := mapME_fix hdfix
  have e2 : mapME (repairProduct1 today) prods = .ok prods := mapME_fix hpfix
  show (match (mapME (repairDetailEntity today) dts >>= fun dts2 =>
         mapME (repairProduct1 today) prods >>= fun prods2 =>
         Except.ok (Json.obj [("entity", Json.obj [("id", Json.null),
           ("name_brand", if NB.isStr then NB
             else if (Json.undef).isStr then Json.undef else Json.str "Unknown Company"),
           ("details", Json.arr dts2), ("products", Json.arr prods2)]),
           ("_meta", if M.truthy && M.typeofObject then M else defaultMeta)]) :
          Except Unit Json) with
       | .ok r => r
       | .error _ => defaultData)
      = Json.obj [("entity", Json.obj [("id", Json.null), ("name_brand", NB),
          ("details", Json.arr dts), ("products", Json.arr prods)]), ("_meta", M)]
  rw [e1]
  show (match (mapME (repairProduct1 today) prods >>= fun prods2 =>
         Except.ok (Json.obj [("entity", Json.obj [("id", Json.null),
           ("name_brand", if NB.isStr then NB
             else if (Json.undef).isStr then Json.undef else Json.str "Unknown Company"),
           ("details", Json.arr dts), ("products", Json.arr prods2)]),
           ("_meta", if M.truthy && M.typeofObject then M else defaultMeta)]) :
          Except Unit Json) with
       | .ok r => r
       | .error _ => defaultData) = _
  rw [e2]
  show Json.obj [("entity", Json.obj [("id", Json.null),
      ("name_brand", if NB.isStr then NB
        else if (Json.undef).isStr then Json.undef else Json.str "Unknown Company"),
      ("details", Json.arr dts), ("products", Json.arr prods)]),
      ("_meta", if M.truthy && M.typeofObject then M else defaultMeta)] = _
  rw [strChainFix NB Json.undef "Unknown Company" hNB, if_pos hM]

/-- C4 counterexample: a schema-valid input whose root entity carries a
non-null string id; repair is NOT structurally equivalent to it modulo
default-filling — it nulls the present id. -/
theorem C4_counterexample :
    analysisDataValid (.obj [("entity", .obj [("id", .str "ext-7"),
      ("name_brand", .str "Acme")])]) = true ∧
    jGet (jGet (.obj [("entity", .obj [("id", .str "ext-7"),
      ("name_brand", .str "Acme")])] : Json) "entity") "id" = .str "ext-7" ∧
    jGet (jGet (repairAnalysisData "2026-10-11"
      (.obj [("entity", .obj [("id", .str "ext-7"), ("name_brand", .str "Acme")])]))
      "entity") "id" = .null := by
  refine ⟨by decide, by decide, by decide⟩

/-- C4 (amended): on schema-valid input, repair re-canonicalizes rather
than preserves — it nulls every id and keeps only the repaired shape's
fields (dropping e.g. a supplied non-null id), while filling defaults
into absent optional fields; the idempotence equation
`repair(repair(v)) = repair(v)` does hold for every valid `v` (with the
as-of date held fixed). -/
theorem C4_idempotent (today : String) (v : Json) (h : analysisDataValid v = true) :
    repairAnalysisData today (repairAnalysisData today v) = repairAnalysisData today v := by
  obtain ⟨fs, efs, hv, he, hprods⟩ := validStructure h
  subst hv
  have hev : jGet (Json.obj fs) "entity" = .obj efs := he
  have hm1 : matchesCase1 (Json.obj fs) = true := by
    rw [matchesCase1, hev]; rfl
  have hg : ((Json.obj fs).truthy && (Json.obj fs).typeofObject) = true := rfl
  cases hr : repairCase1 today (Json.obj fs) (jGet (Json.obj fs) "entity") with
  | error e =>
      have hRv : repairAnalysisData today (Json.obj fs) = defaultData := by
        rw [repairAnalysisData, if_pos hg, repairTry, if_pos hm1, hr]
      rw [hRv, repair_default_fix]
  | ok r =>
      have hRv : repairAnalysisData today (Json.obj fs) = r := by
        rw [repairAnalysisData, if_pos hg, repairTry, if_pos hm1, hr]
      rw [hRv]
      obtain ⟨dts, prods, hdts, hprods1, hre⟩ := repairCase1_shape hr
      subst hre
      refine case1_result_fix today _ _ dts prods
        (strChainIsStr (jGet (jGet (Json.obj fs) "entity") "name_brand")
          (jGet (jGet (Json.obj fs) "entity") "nameBrand") "Unknown Company")
        ?_ ?_ ?_
      · by_cases hmv : ((jGet (Json.obj fs) "_meta").truthy &&
            (jGet (Json.obj fs) "_meta").typeofObject) = true
        · rw [if_pos hmv]
          exact hmv
        · rw [if_neg hmv]
          rfl
      · intro y hy
        obtain ⟨x, hx⟩ := matchMap_ok hdts y hy
        exact rde_fix today hx
      · intro y hy
        rw [hev] at hprods1
        cases hp : fieldVal efs "products" with
        | arr xs =>
            have hpx : jGet (Json.obj efs) "products" = Json.arr xs := hp
            rw [hpx] at hprods1
            obtain ⟨x, hxmem, hx⟩ := mapME_ok_mem hprods1 y hy
            exact rp1_fix today (hprods xs hp x hxmem) hx
        | null =>
            have hpx : jGet (Json.obj efs) "products" = Json.null := hp
            rw [hpx] at hprods1
            cases hprods1
            simp at hy
        | undef =>
            have hpx : jGet (Json.obj efs) "products" = Json.undef := hp
            rw [hpx] at hprods1
            cases hprods1
            simp at hy
        | bool b =>
            have hpx : jGet (Json.obj efs) "products" = Json.bool b := hp
            rw [hpx] at hprods1
            cases hprods1
            simp at hy
        | num n =>
            have hpx : jGet (Json.obj efs) "products" = Json.num n := hp
            rw [hpx] at hprods1
            cases hprods1
            simp at hy
        | str s =>
            have hpx : jGet (Json.obj efs) "products" = Json.str s := hp
            rw [hpx] at hprods1
            cases hprods1
            simp at hy
        | obj fs2 =>
            have hpx : jGet (Json.obj efs) "products" = Json.obj fs2 := hp
            rw [hpx] at hprods1
            cases hprods1
            simp at hy

/-- Witness for C4_idempotent at a concrete schema-valid input. -/
theorem C4_idempotent_witness :
    repairAnalysisData "2026-10-11" (repairAnalysisData "2026-10-11"
      (.obj [("entity", .obj [("id", .null), ("name_brand", .str "Acme"),
        ("products", .arr [.obj [("id", .null), ("name_brand", .str "Widget"),
          ("competitors", .arr [.obj [("id", .null), ("name_brand", .str "Bolt")]])]])])]))
      = repairAnalysisData "2026-10-11"
        (.obj [("entity", .obj [("id", .null), ("name_brand", .str "Acme"),
          ("products", .arr [.obj [("id", .null), ("name_brand", .str "Widget"),
            ("competitors", .arr [.obj [("id", .null), ("name_brand", .str "Bolt")]])]])])]) :=
  C4_idempotent "2026-10-11" _ (by decide)

/-! ## C10 — first-occurrence-wins competitor deduplication (confirmed) -/

theorem hasName_eq : ∀ (acc : List CompetitorUI) (n : String),
    hasName acc n = nameSeen (acc.map CompetitorUI.name) n := by
  intro acc n
  induction acc with
  | nil => rfl
  | cons c cs ih =>
      show (if c.name = n then true else hasName cs n)
        = (if c.name = n then true else nameSeen (cs.map CompetitorUI.name) n)
      by_cases h : c.name = n
      · simp [h]
      · simp only [h, if_false]
        exact ih

theorem nameSeen_cons (m : String) (ms : List String) (x : String) :
    nameSeen (m :: ms) x = (if m = x then true else nameSeen ms x) := rfl

theorem nameSeen_append : ∀ (a b : List String) (x : String),
    nameSeen (a ++ b) x = (nameSeen a x || nameSeen b x) := by
  intro a b x
  induction a with
  | nil => rfl
  | cons m ms ih =>
      rw [List.cons_append, nameSeen_cons, nameSeen_cons]
      by_cases h : m = x
      · simp [h]
      · simp only [h, if_false]
        exact ih

theorem specOcc_congr : ∀ (occs : List (String × REntity)) (s1 s2 : List String),
    (∀ x, nameSeen s1 x = nameSeen s2 x) → specOcc s1 occs = specOcc s2 occs := by
  intro occs
  induction occs with
  | nil => intro s1 s2 _; rfl
  | cons o rest ih =>
      intro s1 s2 hs
      obtain ⟨pn, c⟩ := o
      rw [specOcc, specOcc, hs (competitorKeyName c)]
      by_cases h : nameSeen s2 (competitorKeyName c) = true
      · rw [if_pos h, if_pos h]
        exact ih s1 s2 hs
      · rw [if_neg h, if_neg h]
        rw [ih (competitorKeyName c :: s1) (competitorKeyName c :: s2) ?_]
        intro x
        rw [nameSeen_cons, nameSeen_cons]
        by_cases hx : competitorKeyName c = x
        · simp [hx]
        · simp only [hx, if_false]
          exact hs x

theorem specOcc_append : ∀ (o1 o2 : List (String × REntity)) (seen : List String),
    specOcc seen (o1 ++ o2) = specOcc seen o1 ++ specOcc (namesAfter seen o1) o2 := by
  intro o1
  induction o1 with
  | nil => intro o2 seen; rfl
  | cons o rest ih =>
      intro o2 seen
      obtain ⟨pn, c⟩ := o
      rw [List.cons_append, specOcc, specOcc, namesAfter]
      by_cases h : nameSeen seen (competitorKeyName c) = true
      · rw [if_pos h, if_pos h, if_pos h]
        exact ih o2 seen
      · rw [if_neg h, if_neg h, if_neg h, List.cons_append]
        rw [ih o2 (competitorKeyName c :: seen)]

theorem namesAfter_seen : ∀ (o1 : List (String × REntity)) (seen : List String) (x : String),
    nameSeen (namesAfter seen o1) x
      = (nameSeen seen x || nameSeen ((specOcc seen o1).map CompetitorUI.name) x) := by
  intro o1
  induction o1 with
  | nil =>
      intro seen x
      show nameSeen seen x = (nameSeen seen x || false)
      rw [Bool.or_false]
  | cons o rest ih =>
      intro seen x
      obtain ⟨pn, c⟩ := o
      rw [namesAfter, specOcc]
      by_cases h : nameSeen seen (competitorKeyName c) = true
      · rw [if_pos h, if_pos h]
        exact ih seen x
      · rw [if_neg h, if_neg h]
        rw [ih (competitorKeyName c :: seen) x]
        rw [List.map_cons, nameSeen_cons, nameSeen_cons]
        by_cases hx : competitorKeyName c = x
        · simp [hx, mkCompetitorUI]
        · simp [hx, mkCompetitorUI]

theorem addCompetitors_spec : ∀ (cs : List REntity) (acc : List CompetitorUI) (pn : String),
    addCompetitors pn acc cs
      = acc ++ specOcc (acc.map CompetitorUI.name) (cs.map (fun c => (pn, c))) := by
  intro cs
  induction cs with
  | nil => intro acc pn; simp [addCompetitors, specOcc]
  | cons c cs ih =>
      intro acc pn
      rw [List.map_cons, addCompetitors, specOcc, ← hasName_eq]
      by_cases h : hasName acc (competitorKeyName c) = true
      · rw [if_pos h, if_pos h]
        exact ih acc pn
      · rw [if_neg h, if_neg h]
        have ihh := ih (acc ++ [mkCompetitorUI pn c]) pn
        rw [ihh, List.append_assoc, List.singleton_append]
        have hside : ∀ x,
            nameSeen ((acc ++ [mkCompetitorUI pn c]).map CompetitorUI.name) x
            = nameSeen (competitorKeyName c :: acc.map CompetitorUI.name) x := by
          intro x
          rw [List.map_append, nameSeen_append, List.map_cons, nameSeen_cons, nameSeen_cons]
          by_cases hx : competitorKeyName c = x
          · simp [hx, mkCompetitorUI]
          · simp [hx, mkCompetitorUI, nameSeen]
        rw [specOcc_congr (cs.map (fun c => (pn, c))) _ _ hside]

theorem allOccurrences_cons (p : REntity) (ps : List REntity) :
    allOccurrences (p :: ps)
      = (p.competitors.getD []).map (fun c => (p.name_brand, c)) ++ allOccurrences ps := by
  simp [allOccurrences]

theorem loop_spec : ∀ (ps : List REntity) (acc : List CompetitorUI),
    extractCompetitorsLoop acc ps
      = acc ++ specOcc (acc.map CompetitorUI.name) (allOccurrences ps) := by
  intro ps
  induction ps with
  | nil => intro acc; simp [extractCompetitorsLoop, allOccurrences, specOcc]
  | cons p ps ih =>
      intro acc
      rw [extractCompetitorsLoop, allOccurrences_cons]
      cases hc : p.competitors with
      | none =>
          show extractCompetitorsLoop acc ps = _
          rw [ih acc]
          rfl
      | some cs =>
          show (if cs.isEmpty = true then extractCompetitorsLoop acc ps
                else extractCompetitorsLoop (addCompetitors p.name_brand acc cs) ps) = _
          by_cases hemp : cs.isEmpty = true
          · rw [if_pos hemp]
            rw [ih acc]
            have hnil : cs = [] := by
              cases cs with
              | nil => rfl
              | cons a as => simp [List.isEmpty] at hemp
            subst hnil
            rfl
          · rw [if_neg hemp]
            rw [ih (addCompetitors p.name_brand acc cs)]
            rw [addCompetitors_spec cs acc p.name_brand]
            rw [List.append_assoc]
            show _ = acc ++ specOcc (acc.map CompetitorUI.name)
              (cs.map (fun c => (p.name_brand, c)) ++ allOccurrences ps)
            rw [specOcc_append]
            have hside : ∀ x,
                nameSeen ((acc ++ specOcc (acc.map CompetitorUI.name)
                  (cs.map (fun c => (p.name_brand, c)))).map CompetitorUI.name) x
                = nameSeen (namesAfter (acc.map CompetitorUI.name)
                    (cs.map (fun c => (p.name_brand, c)))) x := by
              intro x
              rw [List.map_append, nameSeen_append, namesAfter_seen]
            rw [specOcc_congr (allOccurrences ps) _ _ hside]

/-- C10: `extractCompetitors` equals the claim-side first-occurrence
formulation — flatten all (product, competitor) occurrences in
iteration order; keep each name only the first time it appears; derive
the kept entry's `marketShare` (first `market_share` detail with a
defined `discrete_value`, else 5) and `primaryCompetition` from that
first occurrence; ignore the details of every later occurrence. -/
theorem C10_extract_refinement (products : List REntity) :
    extractCompetitors products = extractCompetitorsSpec products := by
  rw [extractCompetitors, extractCompetitorsSpec]
  by_cases h : products.isEmpty = true
  · rw [if_pos h, if_pos h]
  · rw [if_neg h, if_neg h]
    rw [loop_spec products []]
    rfl
